import Mathlib

/-!
Verification development for the `screeps-rover` movement resolution engine.

The Rust sources under `src/` are shallowly embedded below:
* `resolver.rs` — `ResolvedCreep`, `topological_sort_follows`, `resolve_conflicts`,
  `resolve_swaps`, `try_shove` become Lean functions over association lists
  (`HashMap` iteration order becomes list order; `HashMap::insert` replaces the
  first binding).
* `movementsystem.rs` — `StuckThresholds`, `StuckState`,
  `compute_next_step_for_move_to` (with the external pathfinder search abstracted
  as an `Option (List Pos)` argument: `some` = the complete path points returned
  by `pathfinder::search`, `none` = an incomplete search, exactly the two cases
  `generate_path` distinguishes at lines 1083-1094), and the pass-1/pass-3
  skeleton of `MovementSystem::process`.

Positions are modelled as room-local coordinate pairs of a single room
(`Position::get_range_to` is the Chebyshev distance there); room names never
influence the control flow exercised by the claims.  `u16`/`u8` counters use
explicit `% 65536` / saturation where the Rust code can overflow.
-/

namespace ScreepsRover

/-- Room-local tile position, as `screeps::local::Position` within one room. -/
structure Pos where
  x : Nat
  y : Nat
deriving DecidableEq, Repr

/-- Chebyshev range, as `Position::get_range_to` between same-room positions. -/
def Pos.getRangeTo (a b : Pos) : Nat :=
  max (Nat.dist a.x b.x) (Nat.dist a.y b.y)

/-- MovementPriority (movementrequest.rs lines 39-50); the derived Rust `Ord`
is declaration order: Immovable < Low < Normal < High. -/
inductive MovementPriority
  | Immovable
  | Low
  | Normal
  | High
deriving DecidableEq, Repr

/-- Numeric value of the derived Rust discriminant order. -/
def MovementPriority.rank : MovementPriority → Nat
  | .Immovable => 0
  | .Low => 1
  | .Normal => 2
  | .High => 3

/-- AnchorConstraint (movementrequest.rs lines 62-66). -/
structure AnchorConstraint where
  position : Pos
  range : Nat
deriving DecidableEq, Repr

/-- ResolvedCreep (resolver.rs lines 11-30); the dead `entity` field is the
association-list key. -/
structure ResolvedCreep where
  current_pos : Pos
  desired_pos : Option Pos
  priority : MovementPriority
  allow_shove : Bool
  allow_swap : Bool
  stuck_ticks : Nat
  resolved : Bool
  final_pos : Pos
  has_request : Bool
  anchor : Option AnchorConstraint
deriving DecidableEq, Repr

/-- HashMap<Handle, ResolvedCreep> with iteration order made explicit. -/
abbrev CreepMap := List (Nat × ResolvedCreep)

/-- First-binding association lookup (HashMap::get). -/
def alookup {α β : Type} [DecidableEq α] : List (α × β) → α → Option β
  | [], _ => none
  | (k, v) :: rest, a => if k = a then some v else alookup rest a

/-- HashMap::insert semantics: replace the first binding if present, else append. -/
def ainsert {α β : Type} [DecidableEq α] : List (α × β) → α → β → List (α × β)
  | [], a, b => [(a, b)]
  | (k, v) :: rest, a, b => if k = a then (a, b) :: rest else (k, v) :: ainsert rest a b

/-- HashMap::remove semantics: drop the first binding for the key. -/
def aremove {α β : Type} [DecidableEq α] : List (α × β) → α → List (α × β)
  | [], _ => []
  | (k, v) :: rest, a => if k = a then rest else (k, v) :: aremove rest a

/-- Every mutation the resolver performs has the shape
`creeps.get_mut(&k).unwrap(); c.resolved = true; c.final_pos = fp`. -/
def markResolved : CreepMap → Nat → Pos → CreepMap
  | [], _, _ => []
  | (k, c) :: rest, e, fp =>
    if k = e then (k, { c with resolved := true, final_pos := fp }) :: rest
    else (k, c) :: markResolved rest e fp

/-- anchor.map(|ac| p.get_range_to(ac.position) <= ac.range).unwrap_or(true). -/
def anchorOk (a : Option AnchorConstraint) (p : Pos) : Bool :=
  match a with
  | none => true
  | some ac => decide (Pos.getRangeTo p ac.position ≤ ac.range)

/-! ## resolve_swaps (resolver.rs lines 357-432) -/

/-- The `pos_to_entity` map over `has_request && !resolved` creeps (lines 360-366). -/
def swapPosMap (creeps : CreepMap) : List (Pos × Nat) :=
  creeps.foldl
    (fun m ec =>
      if ec.2.has_request && !ec.2.resolved then ainsert m ec.2.current_pos ec.1 else m)
    []

/-- Order-normalised swap pair (lines 387-391). -/
def swapPair (e other : Nat) : Nat × Nat := if e < other then (e, other) else (other, e)

/-- One iteration of the swap-pair detection loop (lines 370-398) for the
entry `ec`. -/
def detectStep (creeps : CreepMap) (posMap : List (Pos × Nat))
    (pairs : List (Nat × Nat)) (ec : Nat × ResolvedCreep) : List (Nat × Nat) :=
  if ec.2.resolved || !ec.2.allow_swap then pairs
  else
    match ec.2.desired_pos with
    | none => pairs
    | some desired =>
      match alookup posMap desired with
      | none => pairs
      | some other =>
        if other = ec.1 then pairs
        else
          match alookup creeps other with
          | none => pairs
          | some oc =>
            if oc.resolved || !oc.allow_swap then pairs
            else if oc.desired_pos = some ec.2.current_pos then
              if pairs.contains (swapPair ec.1 other) then pairs
              else pairs ++ [swapPair ec.1 other]
            else pairs

/-- Swap-pair detection loop (lines 368-398). -/
def detectSwapPairs (creeps : CreepMap) (posMap : List (Pos × Nat)) : List (Nat × Nat) :=
  creeps.foldl (detectStep creeps posMap) []

/-- One iteration of the swap execution loop (lines 401-430) for the pair `ab`. -/
def execStep (m : CreepMap) (ab : Nat × Nat) : CreepMap :=
  match alookup m ab.1, alookup m ab.2 with
  | some ca, some cb =>
    match ca.desired_pos, cb.desired_pos with
    | some adest, some bdest =>
      if anchorOk ca.anchor adest && anchorOk cb.anchor bdest then
        markResolved (markResolved m ab.1 adest) ab.2 bdest
      else m
    | _, _ => m
  | _, _ => m

/-- Swap execution loop (lines 400-431). -/
def execSwapPairs (creeps : CreepMap) (pairs : List (Nat × Nat)) : CreepMap :=
  pairs.foldl execStep creeps

/-- resolve_swaps (lines 357-432). -/
def resolveSwaps (creeps : CreepMap) : CreepMap :=
  execSwapPairs creeps (detectSwapPairs creeps (swapPosMap creeps))

/-! ## try_shove (resolver.rs lines 438-585) -/

/-- Maximum depth for shove chains (resolver.rs line 8). -/
def MAX_SHOVE_DEPTH : Nat := 3

/-- Direction::iter() offsets in declaration order Top..TopLeft, via
DirectionExt::into_offset (resolver.rs lines 592-604). -/
def directionOffsets : List (Int × Int) :=
  [(0, -1), (1, -1), (1, 0), (1, 1), (0, 1), (-1, 1), (-1, 0), (-1, -1)]

/-- Set of final positions of resolved creeps (lines 472-476). -/
def firmlyOccupied (creeps : CreepMap) : List Pos :=
  creeps.foldl (fun s ec => if ec.2.resolved then ec.2.final_pos :: s else s) []

/-- current_pos -> entity for unresolved creeps other than `entity`, then idle
creeps via entry().or_insert (lines 480-487). -/
def unresolvedPosMap (creeps : CreepMap) (entity : Nat) (idle : List (Pos × Nat)) :
    List (Pos × Nat) :=
  let base := creeps.foldl
    (fun m ec =>
      if !ec.2.resolved && ec.1 ≠ entity then ainsert m ec.2.current_pos ec.1 else m)
    []
  idle.foldl (fun m pe => if (alookup m pe.1).isSome then m else ainsert m pe.1 pe.2) base

/-- Neighbour tile with the room boundary check of lines 532-544. -/
def neighborOf (p : Pos) (off : Int × Int) : Option Pos :=
  let nx : Int := (p.x : Int) + off.1
  let ny : Int := (p.y : Int) + off.2
  if 0 ≤ nx ∧ nx ≤ 49 ∧ 0 ≤ ny ∧ ny ≤ 49 then some ⟨nx.toNat, ny.toNat⟩ else none

/-- The Direction::iter() loop of try_shove (lines 530-584); `c` is the snapshot
cloned at line 450, `firmly`/`unres` the maps built once at lines 472-487, and
`recFun` the recursive try_shove call at depth + 1.  The map is threaded
through failed chain shoves exactly as the Rust `&mut` reference is. -/
def shoveNeighborsWith (recFun : Nat → CreepMap → CreepMap × Bool) (entity : Nat)
    (c : ResolvedCreep) (walk : Pos → Bool) (firmly : List Pos)
    (unres : List (Pos × Nat)) : CreepMap → List (Int × Int) → CreepMap × Bool
  | creeps, [] => (creeps, false)
  | creeps, off :: rest =>
    match neighborOf c.current_pos off with
    | none => shoveNeighborsWith recFun entity c walk firmly unres creeps rest
    | some nb =>
      if !walk nb || firmly.contains nb || !anchorOk c.anchor nb then
        shoveNeighborsWith recFun entity c walk firmly unres creeps rest
      else
        match alookup unres nb with
        | some ne =>
          let chain := recFun ne creeps
          if chain.2 then (markResolved chain.1 entity nb, true)
          else shoveNeighborsWith recFun entity c walk firmly unres chain.1 rest
        | none => (markResolved creeps entity nb, true)

/-- The body of try_shove (lines 438-585) for one level, with the recursive
call abstracted as `recFun entity creeps depth`. -/
def tryShoveStep (recFun : Nat → CreepMap → Nat → CreepMap × Bool) (entity : Nat)
    (creeps : CreepMap) (idle : List (Pos × Nat)) (walk : Pos → Bool) (depth : Nat) :
    CreepMap × Bool :=
  if MAX_SHOVE_DEPTH ≤ depth then (creeps, false)
  else
    match alookup creeps entity with
    | none => (creeps, false)
    | some c =>
      if !c.allow_shove then (creeps, false)
      else if c.priority = .Immovable then (creeps, false)
      else if c.resolved && c.final_pos ≠ c.current_pos then (creeps, true)
      else
        let firmly := firmlyOccupied creeps
        let unres := unresolvedPosMap creeps entity idle
        let desiredStep : CreepMap × Bool :=
          match c.desired_pos with
          | some desired =>
            if desired ≠ c.current_pos && walk desired && !firmly.contains desired
                && anchorOk c.anchor desired then
              let chain : CreepMap × Bool :=
                match alookup unres desired with
                | some ne => recFun ne creeps (depth + 1)
                | none => (creeps, true)
              if chain.2 then (markResolved chain.1 entity desired, true)
              else (chain.1, false)
            else (creeps, false)
          | none => (creeps, false)
        if desiredStep.2 then (desiredStep.1, true)
        else
          shoveNeighborsWith (fun ne m => recFun ne m (depth + 1)) entity c walk firmly
            unres desiredStep.1 directionOffsets

/-- try_shove (lines 438-585).  The Rust recursion is bounded by the
`depth >= MAX_SHOVE_DEPTH` guard; `fuel` only realises that bound in Lean
(any `fuel > MAX_SHOVE_DEPTH - depth` behaves like the Rust function, since the
depth guard fires before the fuel runs out).  Returns the mutated map together
with the success flag. -/
def tryShove (fuel entity : Nat) (creeps : CreepMap) (idle : List (Pos × Nat))
    (walk : Pos → Bool) (depth : Nat) : CreepMap × Bool :=
  Nat.rec (motive := fun _ => Nat → CreepMap → Nat → CreepMap × Bool)
    (fun _ m _ => (m, false))
    (fun _ recFun e m d => tryShoveStep recFun e m idle walk d)
    fuel entity creeps depth

/-! ## resolve_conflicts (resolver.rs lines 159-354) -/

/-- intent_map entry: entry(desired).or_default().push(entity) (lines 168-177). -/
def addIntent (m : List (Pos × List Nat)) (p : Pos) (e : Nat) : List (Pos × List Nat) :=
  match m with
  | [] => [(p, [e])]
  | (k, v) :: rest => if k = p then (k, v ++ [e]) :: rest else (k, v) :: addIntent rest p e

/-- desired_pos -> contenders, over unresolved creeps (lines 168-177). -/
def intentMap (creeps : CreepMap) : List (Pos × List Nat) :=
  creeps.foldl
    (fun m ec =>
      if ec.2.resolved then m
      else
        match ec.2.desired_pos with
        | some d => addIntent m d ec.1
        | none => m)
    []

/-- current_pos_to_entity over unresolved creeps (lines 182-186); `collect`
keeps the last entry for a duplicated position. -/
def currentPosMap (creeps : CreepMap) : List (Pos × Nat) :=
  creeps.foldl
    (fun m ec => if ec.2.resolved then m else ainsert m ec.2.current_pos ec.1) []

/-- find_occupant closure (lines 191-199). -/
def findOccupant (cur idle : List (Pos × Nat)) (tile : Pos) : Option Nat :=
  match alookup cur tile with
  | some e => some e
  | none => alookup idle tile

/-- Spatial tie-break key order (room_name, x, y) restricted to one room. -/
def posKeyLe (a b : Pos) : Bool :=
  if a.x < b.x then true
  else if b.x < a.x then false
  else decide (a.y ≤ b.y)

/-- Stable insertion keeping `posKeyLe` order. -/
def insertSorted (p : Pos) : List Pos → List Pos
  | [] => [p]
  | q :: rest => if posKeyLe p q then p :: q :: rest else q :: insertSorted p rest

/-- sort_by_key(|p| (p.room_name(), p.x().u8(), p.y().u8())). -/
def sortPos (l : List Pos) : List Pos := l.foldr insertSorted []

/-- tile_deps entry push (line 230). -/
def addDep (m : List (Pos × List Pos)) (k v : Pos) : List (Pos × List Pos) :=
  match m with
  | [] => [(k, [v])]
  | (k', vs) :: rest => if k' = k then (k', vs ++ [v]) :: rest else (k', vs) :: addDep rest k v

/-- tile_deps.entry(tile).or_default() initialisation (lines 213-216). -/
def ensureKey (m : List (Pos × List Pos)) (k : Pos) : List (Pos × List Pos) :=
  match m with
  | [] => [(k, [])]
  | (k', vs) :: rest => if k' = k then (k', vs) :: rest else (k', vs) :: ensureKey rest k

/-- Dependency edges between contested tiles (lines 213-236). -/
def tileDeps (creeps : CreepMap) (cur : List (Pos × Nat)) (imap : List (Pos × List Nat))
    (allTiles : List Pos) : List (Pos × List Pos) :=
  let base := allTiles.foldl ensureKey []
  allTiles.foldl
    (fun m tile =>
      match alookup cur tile with
      | none => m
      | some occ =>
        match alookup creeps occ with
        | none => m
        | some oc =>
          if oc.resolved then m
          else
            match oc.desired_pos with
            | none => m
            | some od =>
              if (alookup imap od).isSome && od ≠ tile then addDep m od tile else m)
    base

/-- in_degree initialisation and increments (lines 241-251). -/
def bumpDeg (m : List (Pos × Nat)) (k : Pos) : List (Pos × Nat) :=
  match m with
  | [] => []
  | (k', d) :: rest => if k' = k then (k', d + 1) :: rest else (k', d) :: bumpDeg rest k

/-- in_degree map for all tiles. -/
def inDegree (allTiles : List Pos) (deps : List (Pos × List Pos)) : List (Pos × Nat) :=
  let base := allTiles.map (fun t => (t, 0))
  deps.foldl (fun m kv => kv.2.foldl bumpDeg m) base

/-- Decrement a tile's in-degree, reporting whether it reached zero (lines 269-277). -/
def decDeg (m : List (Pos × Nat)) (k : Pos) : List (Pos × Nat) × Bool :=
  match m with
  | [] => ([], false)
  | (k', d) :: rest =>
    if k' = k then ((k', d - 1) :: rest, decide (d - 1 = 0))
    else
      let r := decDeg rest k
      ((k', d) :: r.1, r.2)

/-- Kahn queue loop (lines 263-284); the Rust loop runs until the queue drains,
`fuel` bounds the number of dequeues (each tile is enqueued at most once per
unit of in-degree plus the initial queue). -/
def kahnLoop (fuel : Nat) (deps : List (Pos × List Pos)) (queue : List Pos)
    (deg : List (Pos × Nat)) (acc : List Pos) : List Pos :=
  match fuel with
  | 0 => acc
  | fuel' + 1 =>
    match queue with
    | [] => acc
    | tile :: qrest =>
      let acc' := acc ++ [tile]
      match alookup deps tile with
      | none => kahnLoop fuel' deps qrest deg acc'
      | some succs =>
        let step := succs.foldl
          (fun (st : List (Pos × Nat) × List Pos) s =>
            let r := decDeg st.1 s
            if r.2 then (r.1, st.2 ++ [s]) else (r.1, st.2))
          (deg, [])
        kahnLoop fuel' deps (qrest ++ sortPos step.2) step.1 acc'

/-- Dependency-ordered processing order for contested tiles (lines 207-298). -/
def sortedTiles (creeps : CreepMap) (cur : List (Pos × Nat))
    (imap : List (Pos × List Nat)) : List Pos :=
  let allTiles := imap.map Prod.fst
  let deps := tileDeps creeps cur imap allTiles
  let deg := inDegree allTiles deps
  let q0 := sortPos ((deg.filter (fun kv => kv.2 = 0)).map Prod.fst)
  let fuel := allTiles.length + deps.foldl (fun n kv => n + kv.2.length) 0 + 1
  let sorted := kahnLoop fuel deps q0 deg []
  if sorted.length < allTiles.length then
    sorted ++ sortPos (allTiles.filter (fun t => !sorted.contains t))
  else sorted

/-- Winner comparator (lines 307-313): priority, then stuck_ticks. -/
def cmpCreeps (creeps : CreepMap) (a b : Nat) : Ordering :=
  match alookup creeps a, alookup creeps b with
  | some ca, some cb =>
    (compare ca.priority.rank cb.priority.rank).then (compare ca.stuck_ticks cb.stuck_ticks)
  | _, _ => Ordering.eq

/-- Candidate filter and Iterator::max_by (lines 304-314); ties keep the later
element, as Rust's max_by does. -/
def selectWinner (creeps : CreepMap) (cands : List Nat) : Option Nat :=
  (cands.filter
      (fun h =>
        match alookup creeps h with
        | some c => !c.resolved
        | none => false)).foldl
    (fun acc h =>
      match acc with
      | none => some h
      | some a => if cmpCreeps creeps a h = Ordering.gt then some a else some h)
    none

/-- One iteration of the per-tile contention loop (lines 300-345). -/
def resolveTile (idle : List (Pos × Nat)) (walk : Pos → Bool) (cur : List (Pos × Nat))
    (m : CreepMap) (tile : Pos) (cands : List Nat) : CreepMap :=
  match selectWinner m cands with
  | none => m
  | some w =>
    match findOccupant cur idle tile with
    | some occ =>
      if occ = w then markResolved m w tile
      else
        let sh := tryShove (MAX_SHOVE_DEPTH + 1) occ m idle walk 0
        if sh.2 then markResolved sh.1 w tile else sh.1
    | none => markResolved m w tile

/-- Step 4: remaining unresolved creeps stay in place (lines 347-353). -/
def finalizeUnresolved (m : CreepMap) : CreepMap :=
  m.map
    (fun ec =>
      if ec.2.resolved then ec
      else (ec.1, { ec.2 with resolved := true, final_pos := ec.2.current_pos }))

/-- resolve_conflicts (lines 159-354). -/
def resolveConflicts (creeps : CreepMap) (idle : List (Pos × Nat)) (walk : Pos → Bool) :
    CreepMap :=
  let m1 := resolveSwaps creeps
  let imap := intentMap m1
  let cur := currentPosMap m1
  let tiles := sortedTiles m1 cur imap
  let m2 := tiles.foldl (fun m tile => resolveTile idle walk cur m tile ((alookup imap tile).getD [])) m1
  finalizeUnresolved m2

/-! ## Stuck detection (movementsystem.rs lines 15-139) -/

/-- StuckThresholds (lines 18-30); counters in the Rust code are u16. -/
structure StuckThresholds where
  avoid_friendly_creeps : Nat
  increase_ops : Nat
  enable_shoving : Nat
  report_failure : Nat
  no_progress_repath : Nat
deriving DecidableEq, Repr

/-- Default::default() for StuckThresholds (lines 32-42). -/
def StuckThresholds.default : StuckThresholds :=
  { avoid_friendly_creeps := 2
    increase_ops := 4
    enable_shoving := 6
    report_failure := 10
    no_progress_repath := 15 }

/-- Wrapping modulus of the u16 counters. -/
def U16_MOD : Nat := 65536

/-- StuckState (lines 46-57). -/
structure StuckState where
  ticks_immobile : Nat
  ticks_no_progress : Nat
  repath_count : Nat
  last_distance : Nat
deriving DecidableEq, Repr

/-- StuckState::default(). -/
def StuckState.default : StuckState := ⟨0, 0, 0, 0⟩

/-- record_moved (lines 69-79). -/
def StuckState.record_moved (s : StuckState) (current_distance : Nat) : StuckState :=
  { s with
    ticks_immobile := 0
    ticks_no_progress :=
      if current_distance < s.last_distance then 0 else (s.ticks_no_progress + 1) % U16_MOD
    last_distance := current_distance }

/-- record_immobile (lines 82-86). -/
def StuckState.record_immobile (s : StuckState) (current_distance : Nat) : StuckState :=
  { s with
    ticks_immobile := (s.ticks_immobile + 1) % U16_MOD
    ticks_no_progress := (s.ticks_no_progress + 1) % U16_MOD
    last_distance := current_distance }

/-- should_avoid_friendly_creeps_with (lines 102-104), tier 1. -/
def StuckState.shouldAvoidFriendlyCreepsWith (s : StuckState) (t : StuckThresholds) : Bool :=
  decide (t.avoid_friendly_creeps ≤ s.ticks_immobile)

/-- should_increase_ops_with (lines 107-109), tier 2. -/
def StuckState.shouldIncreaseOpsWith (s : StuckState) (t : StuckThresholds) : Bool :=
  decide (t.increase_ops ≤ s.ticks_immobile)

/-- should_enable_shoving_with (lines 112-114), tier 3. -/
def StuckState.shouldEnableShovingWith (s : StuckState) (t : StuckThresholds) : Bool :=
  decide (t.enable_shoving ≤ s.ticks_immobile)

/-- should_report_failure_with (lines 121-123), tier 4. -/
def StuckState.shouldReportFailureWith (s : StuckState) (t : StuckThresholds) : Bool :=
  decide (t.report_failure ≤ s.ticks_immobile)

/-- should_repath_no_progress_with (lines 130-132). -/
def StuckState.shouldRepathNoProgressWith (s : StuckState) (t : StuckThresholds) : Bool :=
  decide (t.no_progress_repath ≤ s.ticks_no_progress)

/-- should_avoid_friendly_creeps (lines 89-91), default thresholds. -/
def StuckState.shouldAvoidFriendlyCreeps (s : StuckState) : Bool :=
  s.shouldAvoidFriendlyCreepsWith StuckThresholds.default

/-- should_increase_ops (lines 93-95). -/
def StuckState.shouldIncreaseOps (s : StuckState) : Bool :=
  s.shouldIncreaseOpsWith StuckThresholds.default

/-- should_enable_shoving (lines 97-99). -/
def StuckState.shouldEnableShoving (s : StuckState) : Bool :=
  s.shouldEnableShovingWith StuckThresholds.default

/-- should_report_failure (lines 116-118). -/
def StuckState.shouldReportFailure (s : StuckState) : Bool :=
  s.shouldReportFailureWith StuckThresholds.default

/-- should_repath_no_progress (lines 125-127). -/
def StuckState.shouldRepathNoProgress (s : StuckState) : Bool :=
  s.shouldRepathNoProgressWith StuckThresholds.default

/-- needs_repath (lines 135-138). -/
def StuckState.needsRepath (s : StuckState) : Bool :=
  decide (StuckThresholds.default.avoid_friendly_creeps ≤ s.ticks_immobile)
    || s.shouldRepathNoProgress

/-! ## Movement results (movementresult.rs) -/

/-- MovementFailure (movementresult.rs lines 18-28). -/
inductive MovementFailure
  | PathNotFound
  | StuckTimeout (ticks : Nat)
  | RoomBlocked
  | InternalError (msg : String)
deriving DecidableEq, Repr

/-- MovementResult (movementresult.rs lines 5-15). -/
inductive MovementResult
  | Moving
  | Arrived
  | Stuck (ticks : Nat)
  | Failed (f : MovementFailure)
deriving DecidableEq, Repr

/-- Stuck bookkeeping of MovementSystem::process for a creep whose resolved
final position equals its current one while it desired a move (movementsystem.rs
lines 525-556): record_immobile, then tier-4 check. -/
def stuckOutcome (s : StuckState) (dist : Nat) : StuckState × MovementResult :=
  let s' := s.record_immobile dist
  if s'.shouldReportFailure then (s', .Failed (.StuckTimeout s'.ticks_immobile))
  else (s', .Stuck s'.ticks_immobile)

/-- State of the stuck counters after `n` consecutive immobile ticks at
constant distance `dist`. -/
def iterateImmobile (n : Nat) (dist : Nat) : StuckState :=
  Nat.rec StuckState.default (fun _ s => s.record_immobile dist) n

/-! ## compute_next_step_for_move_to (movementsystem.rs lines 632-822) -/

/-- CreepPathData (movementsystem.rs lines 141-150). -/
structure CreepPathData where
  destination : Pos
  range : Nat
  path : List Pos
  time : Nat
  stuck_state : StuckState
deriving DecidableEq, Repr

/-- CreepMovementData (movementsystem.rs lines 152-155). -/
structure CreepMovementData where
  path_data : Option CreepPathData
deriving DecidableEq, Repr

instance {ε α : Type} [DecidableEq ε] [DecidableEq α] : DecidableEq (Except ε α)
  | .error a, .error b =>
    if h : a = b then .isTrue (h ▸ rfl) else .isFalse (fun hh => h (Except.error.inj hh))
  | .error _, .ok _ => .isFalse (fun hh => Except.noConfusion hh)
  | .ok _, .error _ => .isFalse (fun hh => Except.noConfusion hh)
  | .ok a, .ok b =>
    if h : a = b then .isTrue (h ▸ rfl) else .isFalse (fun hh => h (Except.ok.inj hh))

/-- Path extraction (lines 803-821): next step is path[1] when standing on
path[0], else path[0] (rejoining after a shove). -/
def extractNext (creep_pos : Pos) (d : CreepMovementData) :
    Except MovementFailure (Option Pos) × CreepMovementData :=
  match d.path_data with
  | none => (Except.error .PathNotFound, d)
  | some pd =>
    let nxt := if pd.path.head? = some creep_pos then pd.path.get? 1 else pd.path.head?
    (Except.ok nxt, d)

/-- compute_next_step_for_move_to (lines 632-822).  The external
`pathfinder::search` inside generate_path (lines 1083-1094) is abstracted as the
`search` argument: `some pts` is the complete search_result.path(), `none` an
incomplete search, which generate_path turns into Err(PathNotFound); on success
generate_path prepends creep_pos (line 1092).  Returns the result together with
the persisted per-creep data. -/
def computeNextStepForMoveTo (reuse_path_length : Nat) (search : Option (List Pos))
    (creep_pos destination : Pos) (range : Nat) (data : CreepMovementData) :
    Except MovementFailure (Option Pos) × CreepMovementData :=
  let data1 : CreepMovementData :=
    match data.path_data with
    | none => data
    | some pd =>
      if pd.destination = destination ∧ pd.range = range then
        if (pd.path.take 2).any (fun p => p = creep_pos) then data
        else
          match (pd.path.take 4).findIdx? (fun p => decide (Pos.getRangeTo creep_pos p ≤ 1)) with
          | some idx => ⟨some { pd with path := pd.path.drop idx }⟩
          | none => ⟨none⟩
      else ⟨none⟩
  let current_distance := Pos.getRangeTo creep_pos destination
  let phaseB : CreepMovementData × Option (Option Nat × Option StuckState) :=
    match data1.path_data with
    | none => (data1, some (none, none))
    | some pd0 =>
      let pd := { pd0 with time := pd0.time + 1 }
      let current_index :=
        ((pd.path.take 2).enum.find? (fun pi => pi.2 = creep_pos)).map Prod.fst
      let eff : Option (Nat × Bool) :=
        match current_index with
        | some idx => some (idx, false)
        | none =>
          let adj :=
            match pd.path.head? with
            | some p => decide (Pos.getRangeTo creep_pos p ≤ 1)
            | none => false
          if adj then some (0, true) else none
      match eff with
      | some it =>
        let newPath := pd.path.drop it.1
        if newPath.length ≤ 1 then (⟨some { pd with path := newPath }⟩, none)
        else
          let ns :=
            if it.2 || decide (it.1 = 0) then pd.stuck_state.record_immobile current_distance
            else pd.stuck_state.record_moved current_distance
          (⟨some { pd with path := newPath, stuck_state := ns }⟩, some (some pd.time, some ns))
      | none => (⟨none⟩, some (none, none))
  match phaseB.2 with
  | none => (Except.ok none, phaseB.1)
  | some snap =>
    let path_expired :=
      match snap.1 with
      | some t => decide (reuse_path_length ≤ t)
      | none => false
    let stuck_needs :=
      match snap.2 with
      | some s => s.needsRepath
      | none => false
    let sgen := snap.2.getD StuckState.default
    if phaseB.1.path_data.isNone || path_expired || stuck_needs then
      match search with
      | none => (Except.error .PathNotFound, phaseB.1)
      | some pts =>
        let ns := { sgen with repath_count := min (sgen.repath_count + 1) 255 }
        extractNext creep_pos ⟨some ⟨destination, range, creep_pos :: pts, 0, ns⟩⟩
    else extractNext creep_pos phaseB.1

/-! ## topological_sort_follows (resolver.rs lines 34-147) -/

/-- MovementIntent (movementrequest.rs lines 69-95), with the fields the
dependency sort inspects. -/
inductive IntentE
  | moveToI (destination : Pos) (range : Nat)
  | followI (target : Nat) (range : Nat)
  | fleeI
deriving DecidableEq, Repr

/-- follower -> leader edge map (lines 38-44). -/
def followEdges (requests : List (Nat × IntentE)) : List (Nat × Nat) :=
  requests.foldl
    (fun m r =>
      match r.2 with
      | .followI t _ => ainsert m r.1 t
      | _ => m)
    []

/-- State threaded through the cycle-detection walk (lines 48-49):
visited (false = in current path, true = fully processed), the mutable edge map,
and the recorded broken follows. -/
structure WalkSt where
  visited : List (Nat × Bool)
  edges : List (Nat × Nat)
  broken : List (Nat × Nat)

/-- Path-walk loop of the cycle detection (lines 59-83); returns the state and
the accumulated path.  Each iteration either stops or colours a previously
unvisited node, so `fuel` larger than the node count realises the Rust loop. -/
def walkChain (fuel : Nat) (st : WalkSt) (path : List Nat) (current : Nat) :
    WalkSt × List Nat :=
  match fuel with
  | 0 => (st, path)
  | fuel' + 1 =>
    match alookup st.visited current with
    | some fullyProcessed =>
      if !fullyProcessed then
        match path.getLast? with
        | some follower =>
          if (alookup st.edges follower).isSome then
            ({ st with
                broken := ainsert st.broken follower current
                edges := aremove st.edges follower },
              path)
          else (st, path)
        | none => (st, path)
      else (st, path)
    | none =>
      let st' := { st with visited := ainsert st.visited current false }
      let path' := path ++ [current]
      match alookup st'.edges current with
      | some leader => walkChain fuel' st' path' leader
      | none => (st', path')

/-- Marking the walked path as fully processed (lines 85-88). -/
def markPath (visited : List (Nat × Bool)) (path : List Nat) : List (Nat × Bool) :=
  path.foldl (fun v n => ainsert v n true) visited

/-- Cycle detection over the snapshot of edge keys (lines 51-89). -/
def detectCycles (edges0 : List (Nat × Nat)) : WalkSt :=
  (edges0.map Prod.fst).foldl
    (fun st start =>
      if (alookup st.visited start).isSome then st
      else
        let r := walkChain (2 * edges0.length + 2) st [] start
        { r.1 with visited := markPath r.1.visited r.2 })
    ⟨[], edges0, []⟩

/-- remaining: entity -> optional unbroken leader (lines 95-100). -/
def remainingMap (requests : List (Nat × IntentE)) (edges : List (Nat × Nat)) :
    List (Nat × Option Nat) :=
  requests.foldl (fun m r => ainsert m r.1 (alookup edges r.1)) []

/-- One batch of entities whose leader is processed or absent (lines 109-123). -/
def batchOf (remaining : List (Nat × Option Nat)) (processed : List Nat) : List Nat :=
  (remaining.filter
      (fun el =>
        !processed.contains el.1 &&
          match el.2 with
          | none => true
          | some l => processed.contains l || !(alookup remaining l).isSome)).map
    Prod.fst

/-- Layered extraction loop (lines 108-144); each pass processes a non-empty
batch or flushes the leftovers, so `fuel = remaining.length + 1` realises the
Rust loop. -/
def sortLoop (fuel : Nat) (remaining : List (Nat × Option Nat)) (processed : List Nat)
    (sorted : List Nat) : List Nat :=
  match fuel with
  | 0 => sorted
  | fuel' + 1 =>
    let batch := batchOf remaining processed
    if batch.isEmpty then
      sorted ++ (remaining.filter (fun el => !processed.contains el.1)).map Prod.fst
    else
      let sorted' := sorted ++ batch
      let processed' := processed ++ batch
      if remaining.length ≤ processed'.length then sorted'
      else sortLoop fuel' remaining processed' sorted'

/-- topological_sort_follows (lines 34-147): returns (sorted order, broken follows). -/
def topologicalSortFollows (requests : List (Nat × IntentE)) :
    List Nat × List (Nat × Nat) :=
  let edges0 := followEdges requests
  let st := detectCycles edges0
  let remaining := remainingMap requests st.edges
  (sortLoop (remaining.length + 1) remaining [] [], st.broken)

/-! ## MovementSystem::process passes 1 and 3 (movementsystem.rs lines 294-629) -/

/-- The per-creep world state pass 1 queries (Creep::pos/fatigue/spawning). -/
structure CreepInfo where
  pos : Pos
  fatigue : Nat
  spawning : Bool

/-- The request fields pass 1 copies into the resolver record
(movementrequest.rs lines 97-106). -/
structure RequestFlags where
  priority : MovementPriority
  allow_shove : Bool
  allow_swap : Bool
  anchor : Option AnchorConstraint

/-- One iteration of pass 1 of MovementSystem::process (lines 318-476) for the
entity `e`: the fatigue/spawning guard of lines 337-341, then intent
resolution.  The per-intent desired step computation
(compute_next_step_for_move_to / _follow / _flee together with the arrived
check) is abstracted as `oracle`; `stuckOf` abstracts the cached
stuck_state.ticks_immobile snapshot of lines 420-424. -/
def pass1Step (getCreep : Nat → Option CreepInfo) (stuckOf : Nat → Nat)
    (oracle : Nat → Except MovementFailure (Option Pos))
    (requests : List (Nat × RequestFlags))
    (st : List (Nat × MovementResult) × CreepMap) (e : Nat) :
    List (Nat × MovementResult) × CreepMap :=
  match alookup requests e with
  | none => st
  | some req =>
    match getCreep e with
    | none => (ainsert st.1 e (.Failed (.InternalError "get_creep failed")), st.2)
    | some info =>
      if 0 < info.fatigue || info.spawning then (ainsert st.1 e .Moving, st.2)
      else
        match oracle e with
        | .ok (some d) =>
          (st.1,
            ainsert st.2 e
              ⟨info.pos, some d, req.priority, req.allow_shove, req.allow_swap,
                stuckOf e, false, info.pos, true, req.anchor⟩)
        | .ok none =>
          if req.allow_shove || req.allow_swap then
            (st.1,
              ainsert st.2 e
                ⟨info.pos, none, req.priority, req.allow_shove, req.allow_swap, 0,
                  false, info.pos, true, req.anchor⟩)
          else (ainsert st.1 e .Arrived, st.2)
        | .error err => (ainsert st.1 e (.Failed err), st.2)

/-- Pass 1 of MovementSystem::process (lines 318-476) over the dependency-sorted
entity list.  Returns (results, resolved_creeps). -/
def pass1 (getCreep : Nat → Option CreepInfo) (stuckOf : Nat → Nat)
    (oracle : Nat → Except MovementFailure (Option Pos))
    (requests : List (Nat × RequestFlags)) (sorted : List Nat) :
    List (Nat × MovementResult) × CreepMap :=
  sorted.foldl (pass1Step getCreep stuckOf oracle requests) ([], [])

/-- Pass 3 of MovementSystem::process (lines 508-610): entities that already
have a result are skipped (line 510); for the rest the outcome of the stuck
bookkeeping and move execution is abstracted as `execOutcome`. -/
def pass3 (execOutcome : Nat → ResolvedCreep → MovementResult) (rc : CreepMap)
    (results : List (Nat × MovementResult)) : List (Nat × MovementResult) :=
  rc.foldl
    (fun res ec =>
      if (alookup res ec.1).isSome then res else ainsert res ec.1 (execOutcome ec.1 ec.2))
    results

/-! ## Anchor-containment invariant (claim C7) -/

/-- A record with its tick-scoped resolution state reset; two maps with equal
`skeleton`s agree on everything except resolved flags and final positions. -/
def stripResolution (c : ResolvedCreep) : ResolvedCreep :=
  { c with resolved := false, final_pos := c.current_pos }

/-- The per-entry data the resolver never writes (it only ever sets
resolved / final_pos through `markResolved`). -/
def skeleton (m : CreepMap) : CreepMap :=
  m.map (fun ec => (ec.1, stripResolution ec.2))

/-- An anchored record is compliant when it either has not moved or its final
tile is within the anchor range (movementrequest.rs lines 59-66). -/
def entryAnchorOk (c : ResolvedCreep) : Bool :=
  match c.anchor with
  | none => true
  | some ac =>
    decide (c.final_pos = c.current_pos)
      || decide (Pos.getRangeTo c.final_pos ac.position ≤ ac.range)

/-- Anchor containment for a whole record set.  It holds for the fresh records
pass 1 builds (final_pos = current_pos), so any violation would have to come
from a resolver mutation. -/
def anchorInv (m : CreepMap) : Bool :=
  m.all (fun ec => entryAnchorOk ec.2)

/-! ## Concrete scenario inputs used by the claim evaluations -/

/-- Fresh tick-scoped record as pass 1 of MovementSystem::process builds it
(lines 426-441): unresolved, final_pos = current_pos, has_request. -/
def mkCreep (cur : Pos) (des : Option Pos) (pr : MovementPriority)
    (shove swap : Bool) : ResolvedCreep :=
  ⟨cur, des, pr, shove, swap, 0, false, cur, true, none⟩

/-- Three requesting creeps: 0 and 1 are a head-to-head swap pair across
(10,10)/(10,11); creep 2 independently wants tile (10,10). -/
def c1Creeps : CreepMap :=
  [(0, mkCreep ⟨10, 10⟩ (some ⟨10, 11⟩) .Normal true true),
   (1, mkCreep ⟨10, 11⟩ (some ⟨10, 10⟩) .Normal true true),
   (2, mkCreep ⟨20, 20⟩ (some ⟨10, 10⟩) .Normal true true)]

/-- A creep with priority Immovable that itself requested a move, head-to-head
with a Normal creep; both leave allow_swap at its default (true). -/
def c2Creeps : CreepMap :=
  [(0, mkCreep ⟨10, 10⟩ (some ⟨10, 11⟩) .Immovable true true),
   (1, mkCreep ⟨10, 11⟩ (some ⟨10, 10⟩) .Normal true true)]

/-- Cached movement data: a valid path to (5,9) with range 0 whose reuse timer
is about to expire (time 4 with reuse_path_length 5). -/
def c3Data : CreepMovementData :=
  ⟨some ⟨⟨5, 9⟩, 0, [⟨5, 5⟩, ⟨5, 6⟩, ⟨5, 7⟩, ⟨5, 8⟩, ⟨5, 9⟩], 4, ⟨0, 0, 0, 0⟩⟩⟩

/-- Two contenders for tile (3,3): agent 0 has High priority, agent 1 Low. -/
def c5Creeps : CreepMap :=
  [(0, mkCreep ⟨3, 4⟩ (some ⟨3, 3⟩) .High true true),
   (1, mkCreep ⟨2, 3⟩ (some ⟨3, 3⟩) .Low true true)]

/-- An anchored idle worker (anchor (10,10) radius 1) next to a creep that
wants its tile, so a shove of creep 0 is exercised. -/
def c7Creeps : CreepMap :=
  [(0, { mkCreep ⟨10, 10⟩ none .Normal true true with anchor := some ⟨⟨10, 10⟩, 1⟩ }),
   (1, mkCreep ⟨10, 11⟩ (some ⟨10, 10⟩) .Normal true true)]

/-- A clean mutual swap pair: agents 0 and 1 head-to-head across
(10,10)/(10,11), both with allow_swap, no anchors. -/
def c6Creeps : CreepMap :=
  [(0, mkCreep ⟨10, 10⟩ (some ⟨10, 11⟩) .Normal true true),
   (1, mkCreep ⟨10, 11⟩ (some ⟨10, 10⟩) .Normal true true)]

/-- The follow cycle 0→1→2→0, in every iteration order of the request map. -/
def followCycleRequests : List (List (Nat × IntentE)) :=
  [[(0, .followI 1 1), (1, .followI 2 1), (2, .followI 0 1)],
   [(0, .followI 1 1), (2, .followI 0 1), (1, .followI 2 1)],
   [(1, .followI 2 1), (0, .followI 1 1), (2, .followI 0 1)],
   [(1, .followI 2 1), (2, .followI 0 1), (0, .followI 1 1)],
   [(2, .followI 0 1), (0, .followI 1 1), (1, .followI 2 1)],
   [(2, .followI 0 1), (1, .followI 2 1), (0, .followI 1 1)]]

/-!
## Shared lemmas
-/

/-- Lookup after `markResolved`: the key's first binding gets
resolved := true / final_pos := fp, every other lookup is unchanged. -/
theorem alookup_markResolved (m : CreepMap) (e : Nat) (fp : Pos) (k : Nat) :
    alookup (markResolved m e fp) k =
      if k = e then
        (alookup m k).map (fun c => { c with resolved := true, final_pos := fp })
      else alookup m k := by
  induction m with
  | nil => simp [markResolved, alookup]
  | cons hd tl ih =>
    obtain ⟨k', c⟩ := hd
    by_cases h1 : k' = e
    · subst h1
      by_cases h2 : k' = k
      · subst h2; simp [markResolved, alookup]
      · simp [markResolved, alookup, h2, Ne.symm h2]
    · by_cases h2 : k' = k
      · subst h2
        have hke : ¬k' = e := h1
        simp [markResolved, alookup, h1, hke]
      · simp [markResolved, alookup, h1, h2, ih]

/-- Unfolding equation of `tryShove` at zero fuel. -/
theorem tryShove_zero (e : Nat) (m : CreepMap) (idle : List (Pos × Nat))
    (walk : Pos → Bool) (d : Nat) : tryShove 0 e m idle walk d = (m, false) := rfl

/-- Unfolding equation of `tryShove` at positive fuel. -/
theorem tryShove_succ (fuel e : Nat) (m : CreepMap) (idle : List (Pos × Nat))
    (walk : Pos → Bool) (d : Nat) :
    tryShove (fuel + 1) e m idle walk d
      = tryShoveStep (fun ne mm dd => tryShove fuel ne mm idle walk dd) e m idle walk d :=
  rfl

/-- A try_shove call at depth ≥ MAX_SHOVE_DEPTH fails and leaves the map
unchanged (resolver.rs lines 445-447). -/
theorem tryShove_depth_exceeded (fuel e : Nat) (creeps : CreepMap)
    (idle : List (Pos × Nat)) (walk : Pos → Bool) (depth : Nat)
    (h : MAX_SHOVE_DEPTH ≤ depth) :
    tryShove fuel e creeps idle walk depth = (creeps, false) := by
  cases fuel with
  | zero => exact tryShove_zero ..
  | succ fuel => rw [tryShove_succ]; simp [tryShoveStep, h]

/-- The neighbour loop leaves the map untouched when it fails, provided the
chain-shove callback does. -/
theorem shoveNeighborsWith_failed_unchanged (recFun : Nat → CreepMap → CreepMap × Bool)
    (hrec : ∀ ne m, (recFun ne m).2 = false → (recFun ne m).1 = m)
    (entity : Nat) (c : ResolvedCreep) (walk : Pos → Bool) (firmly : List Pos)
    (unres : List (Pos × Nat)) :
    ∀ (dirs : List (Int × Int)) (creeps : CreepMap),
      (shoveNeighborsWith recFun entity c walk firmly unres creeps dirs).2 = false →
      (shoveNeighborsWith recFun entity c walk firmly unres creeps dirs).1 = creeps := by
  intro dirs
  induction dirs with
  | nil => intro creeps _; simp [shoveNeighborsWith]
  | cons off rest ihd =>
    intro creeps h
    simp only [shoveNeighborsWith] at h ⊢
    cases hnb : neighborOf c.current_pos off with
    | none => simp only [hnb] at h ⊢; exact ihd _ h
    | some nb =>
      simp only [hnb] at h ⊢
      by_cases hcond : (!walk nb || firmly.contains nb || !anchorOk c.anchor nb) = true
      · rw [if_pos hcond] at h ⊢; exact ihd _ h
      · rw [if_neg hcond] at h ⊢
        cases hne : alookup unres nb with
        | none => simp [hne] at h
        | some ne =>
          simp only [hne] at h ⊢
          by_cases hch : (recFun ne creeps).2 = true
          · rw [if_pos hch] at h; simp at h
          · rw [if_neg hch] at h ⊢
            rw [ihd _ h, hrec _ _ (by simpa using hch)]

/-- One level of try_shove leaves the map untouched when it fails, provided the
recursive callback does. -/
theorem tryShoveStep_failed_unchanged (recFun : Nat → CreepMap → Nat → CreepMap × Bool)
    (hrec : ∀ ne m d, (recFun ne m d).2 = false → (recFun ne m d).1 = m)
    (e : Nat) (creeps : CreepMap) (idle : List (Pos × Nat)) (walk : Pos → Bool)
    (depth : Nat) (h : (tryShoveStep recFun e creeps idle walk depth).2 = false) :
    (tryShoveStep recFun e creeps idle walk depth).1 = creeps := by
  have loop := shoveNeighborsWith_failed_unchanged (fun ne m => recFun ne m (depth + 1))
    (fun ne m hh => hrec ne m (depth + 1) hh)
  simp only [tryShoveStep] at h ⊢
  by_cases hd : MAX_SHOVE_DEPTH ≤ depth
  · rw [if_pos hd]
  · rw [if_neg hd] at h ⊢
    cases hc : alookup creeps e with
    | none => simp [hc]
    | some c =>
      simp only [hc] at h ⊢
      by_cases h1 : (!c.allow_shove) = true
      · rw [if_pos h1]
      · rw [if_neg h1] at h ⊢
        by_cases h2 : c.priority = MovementPriority.Immovable
        · rw [if_pos h2]
        · rw [if_neg h2] at h ⊢
          by_cases h3 : (c.resolved && decide (c.final_pos ≠ c.current_pos)) = true
          · rw [if_pos h3] at h; simp at h
          · rw [if_neg h3] at h ⊢
            cases hdes : c.desired_pos with
            | none =>
              simp only [hdes, Bool.false_eq_true, if_false] at h ⊢
              exact loop _ _ _ _ _ _ _ h
            | some desired =>
              simp only [hdes] at h ⊢
              by_cases h4 : (desired ≠ c.current_pos && walk desired
                  && !(firmlyOccupied creeps).contains desired
                  && anchorOk c.anchor desired) = true
              · rw [if_pos h4] at h ⊢
                cases hne2 : alookup (unresolvedPosMap creeps e idle) desired with
                | none => simp [hne2] at h
                | some ne =>
                  simp only [hne2] at h ⊢
                  by_cases hch : (recFun ne creeps (depth + 1)).2 = true
                  · rw [if_pos hch] at h; simp at h
                  · rw [if_neg hch] at h ⊢
                    simp only [Bool.false_eq_true, if_false] at h ⊢
                    rw [loop _ _ _ _ _ _ _ h, hrec _ _ _ (by simpa using hch)]
              · rw [if_neg h4] at h ⊢
                simp only [Bool.false_eq_true, if_false] at h ⊢
                exact loop _ _ _ _ _ _ _ h

/-- A failed try_shove call leaves the map untouched: mutations only happen on
branches that return true, and failed recursive sub-calls are themselves
mutation-free by induction. -/
theorem tryShove_failed_unchanged (fuel : Nat) :
    ∀ e (creeps : CreepMap) idle walk depth,
      (tryShove fuel e creeps idle walk depth).2 = false →
      (tryShove fuel e creeps idle walk depth).1 = creeps := by
  induction fuel with
  | zero => intro e creeps idle walk depth _; rw [tryShove_zero]
  | succ fuel ih =>
    intro e creeps idle walk depth h
    rw [tryShove_succ] at h ⊢
    exact tryShoveStep_failed_unchanged _ (fun ne m d hh => ih ne m idle walk d hh)
      e creeps idle walk depth h

theorem alookup_mapVal {γ : Type} (f : ResolvedCreep → γ) (m : CreepMap) (k : Nat) :
    alookup (m.map (fun ec => (ec.1, f ec.2))) k = (alookup m k).map f := by
  induction m with
  | nil => simp [alookup]
  | cons hd tl ih =>
    obtain ⟨k', c⟩ := hd
    by_cases h : k' = k <;> simp [alookup, h, ih]

theorem skeleton_markResolved (m : CreepMap) (e : Nat) (fp : Pos) :
    skeleton (markResolved m e fp) = skeleton m := by
  induction m with
  | nil => rfl
  | cons hd tl ih =>
    obtain ⟨k, c⟩ := hd
    by_cases h : k = e
    · simp [markResolved, skeleton, h, stripResolution]
    · simp only [markResolved, if_neg h, skeleton, List.map_cons]
      simpa [skeleton] using ih

theorem anchor_of_skeleton_eq (m1 m2 : CreepMap) (k : Nat)
    (h : skeleton m1 = skeleton m2) :
    (alookup m1 k).map ResolvedCreep.anchor = (alookup m2 k).map ResolvedCreep.anchor := by
  have h1 := congrArg (fun l => alookup l k) h
  simp only [skeleton, alookup_mapVal] at h1
  have h2 := congrArg (fun o => Option.map ResolvedCreep.anchor o) h1
  simpa [Option.map_map, Function.comp, stripResolution] using h2

theorem markResolved_nolookup (m : CreepMap) (e : Nat) (fp : Pos)
    (h : alookup m e = none) : markResolved m e fp = m := by
  induction m with
  | nil => rfl
  | cons hd tl ih =>
    obtain ⟨k, c⟩ := hd
    by_cases hk : k = e
    · simp [alookup, hk] at h
    · simp only [alookup, if_neg hk] at h
      simp [markResolved, hk, ih h]

theorem anchorInv_markResolved (m : CreepMap) (e : Nat) (fp : Pos) (c : ResolvedCreep)
    (hc : alookup m e = some c) (hok : anchorOk c.anchor fp = true)
    (hinv : anchorInv m = true) : anchorInv (markResolved m e fp) = true := by
  induction m with
  | nil => simp [alookup] at hc
  | cons hd tl ih =>
    obtain ⟨k, v⟩ := hd
    simp only [anchorInv, List.all_cons, Bool.and_eq_true] at hinv
    by_cases hk : k = e
    · simp only [alookup, if_pos hk] at hc
      injection hc with hc
      subst hc
      simp only [markResolved, if_pos hk, anchorInv, List.all_cons, Bool.and_eq_true]
      refine ⟨?_, hinv.2⟩
      cases hanch : v.anchor with
      | none => simp [entryAnchorOk, hanch]
      | some ac =>
        rw [anchorOk.eq_def, hanch] at hok
        simp [entryAnchorOk, hanch, of_decide_eq_true hok]
    · simp only [alookup, if_neg hk] at hc
      simp only [markResolved, if_neg hk, anchorInv, List.all_cons, Bool.and_eq_true]
      exact ⟨hinv.1, ih hc hinv.2⟩

theorem execSwapPairs_anchorInv (pairs : List (Nat × Nat)) :
    ∀ (m : CreepMap), anchorInv m = true → anchorInv (execSwapPairs m pairs) = true := by
  induction pairs with
  | nil => intro m h; simpa [execSwapPairs] using h
  | cons ab rest ih =>
    obtain ⟨a, b⟩ := ab
    intro m h
    have hstep : execSwapPairs m ((a, b) :: rest) = execSwapPairs (execStep m (a, b)) rest := by
      simp [execSwapPairs]
    rw [hstep]
    apply ih
    rw [execStep]
    cases hca : alookup m a with
    | none => simpa [hca] using h
    | some ca =>
      cases hcb : alookup m b with
      | none => simpa [hca, hcb] using h
      | some cb =>
        cases hda : ca.desired_pos with
        | none => simpa [hca, hcb, hda] using h
        | some adest =>
          cases hdb : cb.desired_pos with
          | none => simpa [hca, hcb, hda, hdb] using h
          | some bdest =>
            simp only [hca, hcb, hda, hdb]
            by_cases hg : (anchorOk ca.anchor adest && anchorOk cb.anchor bdest) = true
            · rw [if_pos hg]
              simp only [Bool.and_eq_true] at hg
              have h1 : anchorInv (markResolved m a adest) = true :=
                anchorInv_markResolved m a adest ca hca hg.1 h
              by_cases hab : b = a
              · subst hab
                have hc2 : alookup (markResolved m b adest) b
                    = some { ca with resolved := true, final_pos := adest } := by
                  rw [alookup_markResolved]; simp [hca]
                have hcc : ca = cb := by rw [hca] at hcb; injection hcb
                exact anchorInv_markResolved _ b bdest _ hc2 (by subst hcc; exact hg.2) h1
              · have hc2 : alookup (markResolved m a adest) b = some cb := by
                  rw [alookup_markResolved]; simp [hab, hcb]
                exact anchorInv_markResolved _ b bdest cb hc2 hg.2 h1
            · rw [if_neg hg]; exact h



theorem shoveNeighborsWith_preserves (recFun : Nat → CreepMap → CreepMap × Bool)
    (hrecS : ∀ ne m, skeleton (recFun ne m).1 = skeleton m)
    (hrecA : ∀ ne m, anchorInv m = true → anchorInv (recFun ne m).1 = true)
    (entity : Nat) (c : ResolvedCreep) (walk : Pos → Bool) (firmly : List Pos)
    (unres : List (Pos × Nat)) :
    ∀ (dirs : List (Int × Int)) (creeps : CreepMap),
      (alookup creeps entity).map ResolvedCreep.anchor = some c.anchor →
      skeleton (shoveNeighborsWith recFun entity c walk firmly unres creeps dirs).1
          = skeleton creeps ∧
      (anchorInv creeps = true →
        anchorInv (shoveNeighborsWith recFun entity c walk firmly unres creeps dirs).1
          = true) := by
  intro dirs
  induction dirs with
  | nil => intro creeps _; exact ⟨rfl, fun h => h⟩
  | cons off rest ihd =>
    intro creeps hanch
    obtain ⟨c0, hc0, hc0a⟩ : ∃ c0, alookup creeps entity = some c0 ∧ c0.anchor = c.anchor := by
      cases hx : alookup creeps entity with
      | none => rw [hx] at hanch; simp at hanch
      | some c0 => rw [hx] at hanch; exact ⟨c0, rfl, by injection hanch⟩
    simp only [shoveNeighborsWith]
    cases hnb : neighborOf c.current_pos off with
    | none => exact ihd creeps hanch
    | some nb =>
      dsimp only
      by_cases hcond : (!walk nb || firmly.contains nb || !anchorOk c.anchor nb) = true
      · rw [if_pos hcond]; exact ihd creeps hanch
      · rw [if_neg hcond]
        have hanchok : anchorOk c.anchor nb = true := by
          by_contra hno
          simp only [Bool.not_eq_true] at hno
          simp [hno] at hcond
        cases hne : alookup unres nb with
        | none =>
          refine ⟨skeleton_markResolved creeps entity nb, fun hI => ?_⟩
          exact anchorInv_markResolved creeps entity nb c0 hc0 (hc0a ▸ hanchok) hI
        | some ne =>
          dsimp only
          by_cases hch : (recFun ne creeps).2 = true
          · rw [if_pos hch]
            have hskel := hrecS ne creeps
            obtain ⟨c1, hc1, hc1a⟩ : ∃ c1, alookup (recFun ne creeps).1 entity = some c1 ∧
                c1.anchor = c.anchor := by
              have := anchor_of_skeleton_eq _ _ entity hskel
              rw [hc0] at this
              cases hx : alookup (recFun ne creeps).1 entity with
              | none => rw [hx] at this; simp at this
              | some c1 =>
                rw [hx] at this
                exact ⟨c1, rfl, by simpa [hc0a] using this⟩
            refine ⟨?_, fun hI => ?_⟩
            · rw [skeleton_markResolved, hskel]
            · exact anchorInv_markResolved _ entity nb c1 hc1 (hc1a ▸ hanchok) (hrecA ne creeps hI)
          · rw [if_neg hch]
            have hskel := hrecS ne creeps
            have hanch2 : (alookup (recFun ne creeps).1 entity).map ResolvedCreep.anchor
                = some c.anchor := by
              rw [anchor_of_skeleton_eq _ _ entity hskel, hc0]
              simpa using hc0a
            obtain ⟨hs, ha⟩ := ihd (recFun ne creeps).1 hanch2
            exact ⟨hs.trans hskel, fun hI => ha (hrecA ne creeps hI)⟩

theorem tryShoveStep_preserves (recFun : Nat → CreepMap → Nat → CreepMap × Bool)
    (hrecS : ∀ ne m d, skeleton (recFun ne m d).1 = skeleton m)
    (hrecA : ∀ ne m d, anchorInv m = true → anchorInv (recFun ne m d).1 = true)
    (e : Nat) (creeps : CreepMap) (idle : List (Pos × Nat)) (walk : Pos → Bool)
    (depth : Nat) :
    skeleton (tryShoveStep recFun e creeps idle walk depth).1 = skeleton creeps ∧
    (anchorInv creeps = true →
      anchorInv (tryShoveStep recFun e creeps idle walk depth).1 = true) := by
  have loop := shoveNeighborsWith_preserves (fun ne m => recFun ne m (depth + 1))
    (fun ne m => hrecS ne m (depth + 1)) (fun ne m h => hrecA ne m (depth + 1) h) e
  simp only [tryShoveStep]
  by_cases hd : MAX_SHOVE_DEPTH ≤ depth
  · rw [if_pos hd]; exact ⟨rfl, fun h => h⟩
  · rw [if_neg hd]
    cases hc : alookup creeps e with
    | none => exact ⟨rfl, fun h => h⟩
    | some c =>
      dsimp only
      by_cases h1 : (!c.allow_shove) = true
      · rw [if_pos h1]; exact ⟨rfl, fun h => h⟩
      · rw [if_neg h1]
        by_cases h2 : c.priority = MovementPriority.Immovable
        · rw [if_pos h2]; exact ⟨rfl, fun h => h⟩
        · rw [if_neg h2]
          by_cases h3 : (c.resolved && decide (c.final_pos ≠ c.current_pos)) = true
          · rw [if_pos h3]; exact ⟨rfl, fun h => h⟩
          · rw [if_neg h3]
            have hanch0 : (alookup creeps e).map ResolvedCreep.anchor = some c.anchor := by
              rw [hc]; rfl
            cases hdes : c.desired_pos with
            | none =>
              simp only [Bool.false_eq_true, if_false]
              exact loop c walk (firmlyOccupied creeps) (unresolvedPosMap creeps e idle)
                directionOffsets creeps hanch0
            | some desired =>
              dsimp only
              by_cases h4 : (desired ≠ c.current_pos && walk desired
                  && !(firmlyOccupied creeps).contains desired
                  && anchorOk c.anchor desired) = true
              · rw [if_pos h4]
                have hanchok : anchorOk c.anchor desired = true := by
                  simp only [Bool.and_eq_true] at h4
                  exact h4.2
                cases hne2 : alookup (unresolvedPosMap creeps e idle) desired with
                | none =>
                  dsimp only
                  refine ⟨skeleton_markResolved creeps e desired, fun hI => ?_⟩
                  exact anchorInv_markResolved creeps e desired c hc hanchok hI
                | some ne =>
                  dsimp only
                  by_cases hch : (recFun ne creeps (depth + 1)).2 = true
                  · simp only [hch, eq_self_iff_true, if_true]
                    have hskel := hrecS ne creeps (depth + 1)
                    obtain ⟨c1, hc1, hc1a⟩ : ∃ c1,
                        alookup (recFun ne creeps (depth + 1)).1 e = some c1 ∧
                        c1.anchor = c.anchor := by
                      have := anchor_of_skeleton_eq _ _ e hskel
                      rw [hc] at this
                      cases hx : alookup (recFun ne creeps (depth + 1)).1 e with
                      | none => rw [hx] at this; simp at this
                      | some c1 =>
                        rw [hx] at this
                        exact ⟨c1, rfl, by simpa using this⟩
                    refine ⟨?_, fun hI => ?_⟩
                    · rw [skeleton_markResolved, hskel]
                    · exact anchorInv_markResolved _ e desired c1 hc1 (hc1a ▸ hanchok)
                        (hrecA ne creeps (depth + 1) hI)
                  · rw [if_neg hch]
                    simp only [Bool.false_eq_true, if_false]
                    have hskel := hrecS ne creeps (depth + 1)
                    have hanch2 : (alookup (recFun ne creeps (depth + 1)).1 e).map
                        ResolvedCreep.anchor = some c.anchor := by
                      rw [anchor_of_skeleton_eq _ _ e hskel, hc]; rfl
                    obtain ⟨hs, ha⟩ := loop c walk (firmlyOccupied creeps)
                      (unresolvedPosMap creeps e idle) directionOffsets
                      (recFun ne creeps (depth + 1)).1 hanch2
                    exact ⟨hs.trans hskel, fun hI => ha (hrecA ne creeps (depth + 1) hI)⟩
              · rw [if_neg h4]
                simp only [Bool.false_eq_true, if_false]
                exact loop c walk (firmlyOccupied creeps) (unresolvedPosMap creeps e idle)
                  directionOffsets creeps hanch0

theorem tryShove_preserves (fuel : Nat) :
    ∀ e (m : CreepMap) idle walk depth,
      skeleton (tryShove fuel e m idle walk depth).1 = skeleton m ∧
      (anchorInv m = true → anchorInv (tryShove fuel e m idle walk depth).1 = true) := by
  induction fuel with
  | zero => intro e m idle walk depth; exact ⟨rfl, fun h => h⟩
  | succ fuel ih =>
    intro e m idle walk depth
    rw [tryShove_succ]
    exact tryShoveStep_preserves _ (fun ne mm dd => (ih ne mm idle walk dd).1)
      (fun ne mm dd h => (ih ne mm idle walk dd).2 h) e m idle walk depth

/-- Lookup after HashMap::insert. -/
theorem alookup_ainsert {α β : Type} [DecidableEq α] (m : List (α × β)) (k : α) (v : β)
    (j : α) : alookup (ainsert m k v) j = if j = k then some v else alookup m j := by
  induction m with
  | nil =>
    by_cases h : j = k
    · subst h; simp [ainsert, alookup]
    · simp [ainsert, alookup, h, show ¬k = j from fun hh => h hh.symm]
  | cons hd tl ih =>
    obtain ⟨k', v'⟩ := hd
    by_cases h1 : k' = k
    · subst h1
      by_cases h2 : j = k'
      · subst h2; simp [ainsert, alookup]
      · simp [ainsert, alookup, h2, show ¬k' = j from fun hh => h2 hh.symm]
    · by_cases h2 : j = k'
      · subst h2
        simp [ainsert, alookup, h1, show ¬j = k from fun hh => h1 hh]
      · simp [ainsert, alookup, h1, h2, show ¬k' = j from fun hh => h2 hh.symm, ih]

/-- A lookup misses exactly when no binding carries the key. -/
theorem alookup_eq_none_iff_keys {α β : Type} [DecidableEq α] (m : List (α × β)) (k : α) :
    alookup m k = none ↔ ∀ p ∈ m, p.1 ≠ k := by
  induction m with
  | nil => simp [alookup]
  | cons hd tl ih =>
    obtain ⟨k', v⟩ := hd
    by_cases h : k' = k <;> simp [alookup, h, ih]

/-- Swap execution only writes through `markResolved`, so it preserves the
skeleton. -/
theorem skeleton_execSwapPairs (pairs : List (Nat × Nat)) :
    ∀ (m : CreepMap), skeleton (execSwapPairs m pairs) = skeleton m := by
  induction pairs with
  | nil => intro m; rfl
  | cons ab rest ih =>
    obtain ⟨a, b⟩ := ab
    intro m
    have hstep : execSwapPairs m ((a, b) :: rest) = execSwapPairs (execStep m (a, b)) rest := by
      simp [execSwapPairs]
    rw [hstep, ih, execStep]
    cases hca : alookup m a with
    | none => rfl
    | some ca =>
      cases hcb : alookup m b with
      | none => rfl
      | some cb =>
        dsimp only
        cases hda : ca.desired_pos with
        | none => rfl
        | some adest =>
          cases hdb : cb.desired_pos with
          | none => rfl
          | some bdest =>
            dsimp only
            by_cases hg : (anchorOk ca.anchor adest && anchorOk cb.anchor bdest) = true
            · rw [if_pos hg, skeleton_markResolved, skeleton_markResolved]
            · rw [if_neg hg]

/-- resolve_swaps preserves the skeleton. -/
theorem skeleton_resolveSwaps (m : CreepMap) : skeleton (resolveSwaps m) = skeleton m := by
  rw [resolveSwaps]; exact skeleton_execSwapPairs _ m

/-- One contention-loop iteration preserves the skeleton. -/
theorem skeleton_resolveTile (idle : List (Pos × Nat)) (walk : Pos → Bool)
    (cur : List (Pos × Nat)) (m : CreepMap) (tile : Pos) (cands : List Nat) :
    skeleton (resolveTile idle walk cur m tile cands) = skeleton m := by
  rw [resolveTile]
  cases selectWinner m cands with
  | none => rfl
  | some w =>
    dsimp only
    cases findOccupant cur idle tile with
    | none => exact skeleton_markResolved m w tile
    | some occ =>
      dsimp only
      by_cases hw : occ = w
      · rw [if_pos hw]; exact skeleton_markResolved m w tile
      · rw [if_neg hw]
        by_cases hsh : (tryShove (MAX_SHOVE_DEPTH + 1) occ m idle walk 0).2 = true
        · rw [if_pos hsh, skeleton_markResolved]
          exact (tryShove_preserves _ occ m idle walk 0).1
        · rw [if_neg hsh]
          exact (tryShove_preserves _ occ m idle walk 0).1

/-- Step 4 of resolve_conflicts preserves the skeleton. -/
theorem skeleton_finalizeUnresolved (m : CreepMap) :
    skeleton (finalizeUnresolved m) = skeleton m := by
  induction m with
  | nil => rfl
  | cons hd tl ih =>
    obtain ⟨k, c⟩ := hd
    simp only [finalizeUnresolved, List.map_cons, skeleton] at ih ⊢
    by_cases h : c.resolved = true
    · rw [if_pos h]
      exact congrArg₂ List.cons rfl ih
    · rw [if_neg h]
      exact congrArg₂ List.cons (by simp [stripResolution]) ih

/-- resolve_conflicts preserves the skeleton: it never adds, removes or rekeys
records, and only ever writes resolved flags and final positions. -/
theorem skeleton_resolveConflicts (m : CreepMap) (idle : List (Pos × Nat))
    (walk : Pos → Bool) : skeleton (resolveConflicts m idle walk) = skeleton m := by
  rw [resolveConflicts, skeleton_finalizeUnresolved]
  have hfold : ∀ (tiles : List Pos) (m0 : CreepMap) (imap : List (Pos × List Nat))
      (cur : List (Pos × Nat)),
      skeleton (tiles.foldl
        (fun mm tile => resolveTile idle walk cur mm tile ((alookup imap tile).getD [])) m0)
        = skeleton m0 := by
    intro tiles
    induction tiles with
    | nil => intro m0 imap cur; rfl
    | cons t rest ih =>
      intro m0 imap cur
      simp only [List.foldl_cons]
      rw [ih, skeleton_resolveTile]
  rw [hfold, skeleton_resolveSwaps]

section PassOne

variable (getCreep : Nat → Option CreepInfo) (stuckOf : Nat → Nat)
  (oracle : Nat → Except MovementFailure (Option Pos))
  (requests : List (Nat × RequestFlags))

/-- A pass-1 iteration for another entity does not touch `e`'s result or
resolver record. -/
theorem pass1Step_other (st : List (Nat × MovementResult) × CreepMap) (x e : Nat)
    (hx : x ≠ e) :
    alookup (pass1Step getCreep stuckOf oracle requests st x).1 e = alookup st.1 e ∧
    alookup (pass1Step getCreep stuckOf oracle requests st x).2 e = alookup st.2 e := by
  have hne : ¬(e = x) := fun hh => hx hh.symm
  rw [pass1Step]
  cases alookup requests x with
  | none => exact ⟨rfl, rfl⟩
  | some req =>
    dsimp only
    cases getCreep x with
    | none => simp [alookup_ainsert, hne]
    | some info =>
      dsimp only
      by_cases hf : (0 < info.fatigue || info.spawning) = true
      · rw [if_pos hf]; simp [alookup_ainsert, hne]
      · rw [if_neg hf]
        cases oracle x with
        | error err => simp [alookup_ainsert, hne]
        | ok od =>
          cases od with
          | some d => simp [alookup_ainsert, hne]
          | none =>
            dsimp only
            by_cases hs : (req.allow_shove || req.allow_swap) = true
            · rw [if_pos hs]; simp [alookup_ainsert, hne]
            · rw [if_neg hs]; simp [alookup_ainsert, hne]

/-- The pass-1 iteration for a fatigued or spawning creep takes the early
`results.insert(entity, Moving); continue` branch of lines 337-341. -/
theorem pass1Step_self (st : List (Nat × MovementResult) × CreepMap) (e : Nat)
    (req : RequestFlags) (info : CreepInfo)
    (hreq : alookup requests e = some req) (hinfo : getCreep e = some info)
    (hfat : 0 < info.fatigue ∨ info.spawning = true) :
    pass1Step getCreep stuckOf oracle requests st e = (ainsert st.1 e .Moving, st.2) := by
  have hf : (0 < info.fatigue || info.spawning) = true := by
    rcases hfat with h | h <;> simp [h]
  rw [pass1Step, hreq, hinfo]
  dsimp only
  rw [if_pos hf]

/-- Once `e` is recorded as Moving and absent from the resolver records, the
rest of pass 1 keeps it that way. -/
theorem pass1_fold_keep (e : Nat) (req : RequestFlags) (info : CreepInfo)
    (hreq : alookup requests e = some req) (hinfo : getCreep e = some info)
    (hfat : 0 < info.fatigue ∨ info.spawning = true) :
    ∀ (l : List Nat) (st : List (Nat × MovementResult) × CreepMap),
      alookup st.1 e = some .Moving → alookup st.2 e = none →
      alookup (l.foldl (pass1Step getCreep stuckOf oracle requests) st).1 e
          = some .Moving ∧
      alookup (l.foldl (pass1Step getCreep stuckOf oracle requests) st).2 e = none := by
  intro l
  induction l with
  | nil => intro st h1 h2; exact ⟨h1, h2⟩
  | cons x rest ih =>
    intro st h1 h2
    simp only [List.foldl_cons]
    by_cases hx : x = e
    · subst hx
      rw [pass1Step_self getCreep stuckOf oracle requests st x req info hreq hinfo hfat]
      exact ih _ (by simp [alookup_ainsert]) h2
    · obtain ⟨p1, p2⟩ := pass1Step_other getCreep stuckOf oracle requests st x e hx
      exact ih _ (p1.trans h1) (p2.trans h2)

/-- Processing a list containing `e` records Moving for `e` and never adds it
to the resolver records. -/
theorem pass1_fold_reach (e : Nat) (req : RequestFlags) (info : CreepInfo)
    (hreq : alookup requests e = some req) (hinfo : getCreep e = some info)
    (hfat : 0 < info.fatigue ∨ info.spawning = true) :
    ∀ (l : List Nat) (st : List (Nat × MovementResult) × CreepMap),
      alookup st.2 e = none → e ∈ l →
      alookup (l.foldl (pass1Step getCreep stuckOf oracle requests) st).1 e
          = some .Moving ∧
      alookup (l.foldl (pass1Step getCreep stuckOf oracle requests) st).2 e = none := by
  intro l
  induction l with
  | nil => intro st _ hmem; cases hmem
  | cons x rest ih =>
    intro st h2 hmem
    simp only [List.foldl_cons]
    by_cases hx : x = e
    · subst hx
      rw [pass1Step_self getCreep stuckOf oracle requests st x req info hreq hinfo hfat]
      exact pass1_fold_keep getCreep stuckOf oracle requests x req info hreq hinfo hfat
        rest _ (by simp [alookup_ainsert]) h2
    · obtain ⟨_, p2⟩ := pass1Step_other getCreep stuckOf oracle requests st x e hx
      have hmem' : e ∈ rest := by
        cases hmem with
        | head => exact absurd rfl hx
        | tail _ hm => exact hm
      exact ih _ (p2.trans h2) hmem'

end PassOne

/-- Pass 3 leaves the result of an entity that owns no resolver record alone. -/
theorem pass3_preserves (f : Nat → ResolvedCreep → MovementResult) (e : Nat) :
    ∀ (rc : CreepMap) (res : List (Nat × MovementResult)),
      (∀ p ∈ rc, p.1 ≠ e) → alookup (pass3 f rc res) e = alookup res e := by
  intro rc
  induction rc with
  | nil => intro res _; rfl
  | cons ec rest ih =>
    intro res hkeys
    simp only [pass3, List.foldl_cons]
    have hne : ec.1 ≠ e := hkeys ec (List.mem_cons_self ec rest)
    have hne' : ¬(e = ec.1) := fun hh => hne hh.symm
    have hrest : ∀ p ∈ rest, p.1 ≠ e := fun p hp => hkeys p (List.mem_cons_of_mem ec hp)
    by_cases hres : (alookup res ec.1).isSome = true
    · rw [if_pos hres]
      have := ih res hrest
      simp only [pass3] at this
      rw [this]
    · rw [if_neg hres]
      have := ih (ainsert res ec.1 (f ec.1 ec.2)) hrest
      simp only [pass3] at this
      rw [this, alookup_ainsert, if_neg hne']

/-!
## Claim theorems
-/

/-- C7: resolve_swaps and try_shove preserve anchor containment — starting
from any record set in which every anchored agent either has not moved or is
within its anchor range (which trivially holds for the fresh records of pass 1,
where final_pos = current_pos), every tile either function assigns to an
anchored agent lies within `anchor.range` of `anchor.position` (Chebyshev), so
an anchored agent that was shoved or swapped is never left outside its anchor
radius.  Every swap execution is guarded by the a_ok/b_ok checks (resolver.rs
lines 410-421) and every shove assignment by the anchor checks at lines
498-504 and 555-560. -/
theorem c7_anchor_containment (m : CreepMap) (hinv : anchorInv m = true) :
    anchorInv (resolveSwaps m) = true ∧
    ∀ fuel e idle walk depth, anchorInv (tryShove fuel e m idle walk depth).1 = true := by
  constructor
  · rw [resolveSwaps]
    exact execSwapPairs_anchorInv _ m hinv
  · intro fuel e idle walk depth
    exact (tryShove_preserves fuel e m idle walk depth).2 hinv

/-- Closed instantiation of `c7_anchor_containment` on `c7Creeps`, where the
anchored creep 0 is actually shoved. -/
theorem c7_anchor_containment_witness :
    anchorInv (resolveSwaps c7Creeps) = true ∧
    anchorInv (tryShove 4 0 c7Creeps [] (fun _ => true) 0).1 = true :=
  ⟨(c7_anchor_containment c7Creeps (by decide)).1,
    (c7_anchor_containment c7Creeps (by decide)).2 4 0 [] (fun _ => true) 0⟩

/-- C8: a try_shove call at depth ≥ MAX_SHOVE_DEPTH (3) fails, and a failed
shove is clean — whenever try_shove returns false, the map of resolved flags
and final tiles is exactly the input map, so the denied request is not
partially applied by the call or any of its recursive sub-calls. -/
theorem c8_shove_depth_bound_clean_failure :
    (∀ fuel e (creeps : CreepMap) idle walk depth, MAX_SHOVE_DEPTH ≤ depth →
        tryShove fuel e creeps idle walk depth = (creeps, false)) ∧
    (∀ fuel e (creeps : CreepMap) idle walk depth,
        (tryShove fuel e creeps idle walk depth).2 = false →
        (tryShove fuel e creeps idle walk depth).1 = creeps) :=
  ⟨fun fuel e creeps idle walk depth h =>
      tryShove_depth_exceeded fuel e creeps idle walk depth h,
    fun fuel e creeps idle walk depth h =>
      tryShove_failed_unchanged fuel e creeps idle walk depth h⟩

/-- Closed instantiation of `c8_shove_depth_bound_clean_failure`: a depth-3
call on `c2Creeps` fails unchanged, and the depth-0 shove of the Immovable
creep 0 fails with the map untouched. -/
theorem c8_shove_depth_bound_clean_failure_witness :
    tryShove 4 0 c2Creeps [] (fun _ => true) 3 = (c2Creeps, false) ∧
    (tryShove 4 0 c2Creeps [] (fun _ => true) 0).1 = c2Creeps :=
  ⟨c8_shove_depth_bound_clean_failure.1 4 0 c2Creeps [] (fun _ => true) 3 (by decide),
    c8_shove_depth_bound_clean_failure.2 4 0 c2Creeps [] (fun _ => true) 0 (by decide)⟩

/-- C5: for two agents contending for the same desired tile, the winner picked
by the resolver's max_by (priority, then stuck_ticks) is the higher-priority
agent — or, at equal priority, the agent with more accumulated stuck ticks —
under either submission order of the candidate list; and when the tile has no
occupant the contention loop grants that winner the tile. -/
theorem c5_priority_wins (m : CreepMap) (idle : List (Pos × Nat))
    (walk : Pos → Bool) (cur : List (Pos × Nat)) (tile : Pos) (a b : Nat)
    (ca cb : ResolvedCreep)
    (ha : alookup m a = some ca) (hb : alookup m b = some cb)
    (hra : ca.resolved = false) (hrb : cb.resolved = false)
    (hcmp : cb.priority.rank < ca.priority.rank ∨
      (cb.priority = ca.priority ∧ cb.stuck_ticks < ca.stuck_ticks)) :
    selectWinner m [a, b] = some a ∧ selectWinner m [b, a] = some a ∧
    (findOccupant cur idle tile = none →
      alookup (resolveTile idle walk cur m tile [a, b]) a
          = some { ca with resolved := true, final_pos := tile } ∧
      alookup (resolveTile idle walk cur m tile [b, a]) a
          = some { ca with resolved := true, final_pos := tile }) := by
  have h0 : compare ca.priority.rank ca.priority.rank = Ordering.eq :=
    Nat.compare_eq_eq.mpr rfl
  have hcab : cmpCreeps m a b = Ordering.gt := by
    rcases hcmp with h | ⟨hp, hs⟩
    · simp [cmpCreeps, ha, hb, Nat.compare_eq_gt.mpr h, Ordering.then]
    · simp [cmpCreeps, ha, hb, hp, Nat.compare_eq_gt.mpr hs, h0, Ordering.then]
  have hcba : cmpCreeps m b a ≠ Ordering.gt := by
    rcases hcmp with h | ⟨hp, hs⟩
    · simp [cmpCreeps, ha, hb, Nat.compare_eq_lt.mpr h, Ordering.then]
    · simp [cmpCreeps, ha, hb, hp, Nat.compare_eq_lt.mpr hs, h0, Ordering.then]
  have hw1 : selectWinner m [a, b] = some a := by
    simp [selectWinner, ha, hb, hra, hrb, hcab]
  have hw2 : selectWinner m [b, a] = some a := by
    simp [selectWinner, ha, hb, hra, hrb, hcba]
  refine ⟨hw1, hw2, fun hocc => ⟨?_, ?_⟩⟩ <;>
    simp [resolveTile, hw1, hw2, hocc, alookup_markResolved, ha]

/-- Closed instantiation of `c5_priority_wins` on `c5Creeps`. -/
theorem c5_priority_wins_witness :
    selectWinner c5Creeps [0, 1] = some 0 ∧ selectWinner c5Creeps [1, 0] = some 0 ∧
    alookup (resolveTile [] (fun _ => true) [] c5Creeps ⟨3, 3⟩ [0, 1]) 0
        = some { mkCreep ⟨3, 4⟩ (some ⟨3, 3⟩) .High true true with
                  resolved := true, final_pos := ⟨3, 3⟩ } :=
  have h := c5_priority_wins c5Creeps [] (fun _ => true) [] ⟨3, 3⟩ 0 1
    (mkCreep ⟨3, 4⟩ (some ⟨3, 3⟩) .High true true)
    (mkCreep ⟨2, 3⟩ (some ⟨3, 3⟩) .Low true true)
    rfl rfl rfl rfl (Or.inl (by decide))
  ⟨h.1, h.2.1, (h.2.2 rfl).1⟩

/-- C1 (code bug): at the end of resolve_conflicts two distinct agents can hold
the same final tile, and a swap pair's origin tile can become a third party's
final tile.  In `c1Creeps`, resolve_swaps resolves the pair {0,1} to each
other's origin tiles, then the contention loop grants the contested tile
(10,10) to agent 2 without checking the already-resolved swap finals — so both
agent 1 and agent 2 finish with final tile (10,10). -/
theorem c1_shared_final_tile :
    (alookup (resolveConflicts c1Creeps [] (fun _ => true)) 1).map ResolvedCreep.final_pos
        = some ⟨10, 10⟩ ∧
    (alookup (resolveConflicts c1Creeps [] (fun _ => true)) 2).map ResolvedCreep.final_pos
        = some ⟨10, 10⟩ ∧
    (alookup (resolveConflicts c1Creeps [] (fun _ => true)) 2).map ResolvedCreep.resolved
        = some true := by
  decide

/-- C2 (code bug): resolve_swaps checks only allow_swap and resolved (resolver.rs
lines 370-398), never MovementPriority::Immovable, although the enum's own
documentation says an Immovable creep "Cannot be shoved or swapped; does not
move".  In `c2Creeps` the Immovable agent 0 at (10,10) is swapped and its final
tile (10,11) differs from its current tile. -/
theorem c2_immovable_swapped :
    (alookup c2Creeps 0).map ResolvedCreep.priority = some .Immovable ∧
    (alookup c2Creeps 0).map ResolvedCreep.current_pos = some ⟨10, 10⟩ ∧
    (alookup (resolveSwaps c2Creeps) 0).map (fun c => (c.resolved, c.final_pos))
        = some (true, ⟨10, 11⟩) := by
  decide

/-- C3 counterexample: the agent holds a cached path for the same destination
(5,9) and range 0, the reuse timer expires this tick, and regeneration fails
(`search = none`); compute_next_step_for_move_to returns Err(PathNotFound)
instead of a next step from the stale path, because the `?` at
movementsystem.rs line 784 propagates the generate_path failure
unconditionally. -/
theorem c3_counterexample :
    c3Data.path_data.map (fun pd => (pd.destination, pd.range)) = some (⟨5, 9⟩, 0) ∧
    (computeNextStepForMoveTo 5 none ⟨5, 5⟩ ⟨5, 9⟩ 0 c3Data).1
        = Except.error .PathNotFound := by
  decide

/-- C3 (amended): whenever the reuse timer of a cached path for the same
destination and range expires on a tick where the pathfinder search is
incomplete, compute_next_step_for_move_to returns Err(PathNotFound) — the
repath failure propagates even though a usable cached path exists (the stale
path stays in the per-creep data but no next step is returned from it). -/
theorem c3_repath_failure_propagates (reuse : Nat) (cp q dest : Pos) (range t : Nat)
    (rest : List Pos) (s : StuckState) (hexp : reuse ≤ t + 1) :
    (computeNextStepForMoveTo reuse none cp dest range
        ⟨some ⟨dest, range, cp :: q :: rest, t, s⟩⟩).1 = Except.error .PathNotFound := by
  simp [computeNextStepForMoveTo, List.take, List.enum, List.enumFrom, hexp]

/-- Closed instantiation of `c3_repath_failure_propagates`. -/
theorem c3_repath_failure_propagates_witness :
    (computeNextStepForMoveTo 5 none ⟨5, 5⟩ ⟨5, 9⟩ 0
        ⟨some ⟨⟨5, 9⟩, 0, [⟨5, 5⟩, ⟨5, 6⟩, ⟨5, 7⟩], 4, ⟨0, 0, 0, 0⟩⟩⟩).1
      = Except.error .PathNotFound :=
  c3_repath_failure_propagates 5 ⟨5, 5⟩ ⟨5, 6⟩ ⟨5, 9⟩ 0 4 [⟨5, 7⟩] ⟨0, 0, 0, 0⟩ (by decide)

/-- C4 counterexample: with the code's default StuckThresholds
(movementsystem.rs lines 32-42) the shove-enabling tier is already triggered at
6 immobile ticks (the claim says it first triggers at 7) and the failure tier
at 10 (the claim says 12); the first Failed(StuckTimeout) outcome occurs on the
10th immobile tick, with ticks = 10. -/
theorem c4_counterexample :
    StuckState.shouldEnableShoving ⟨6, 0, 0, 0⟩ = true ∧
    StuckState.shouldReportFailure ⟨10, 0, 0, 0⟩ = true ∧
    (stuckOutcome (iterateImmobile 9 5) 5).2 = .Failed (.StuckTimeout 10) := by
  decide

/-- C4 (amended): the default thresholds are 2/4/6/10 (15 for no-progress);
tier 3 first triggers at 6 consecutive immobile ticks and tier 4 at 10; an
agent immobile for 8 ticks has crossed tiers 1, 2 and 3 but not 4, its 9th
immobile tick still yields Stuck, and its 10th yields
Failed(StuckTimeout{ticks:10}). -/
theorem c4_default_tiers :
    StuckThresholds.default = ⟨2, 4, 6, 10, 15⟩ ∧
    (StuckState.shouldEnableShoving ⟨5, 0, 0, 0⟩ = false ∧
      StuckState.shouldEnableShoving ⟨6, 0, 0, 0⟩ = true) ∧
    (StuckState.shouldReportFailure ⟨9, 0, 0, 0⟩ = false ∧
      StuckState.shouldReportFailure ⟨10, 0, 0, 0⟩ = true) ∧
    ((iterateImmobile 8 5).shouldAvoidFriendlyCreeps = true ∧
      (iterateImmobile 8 5).shouldIncreaseOps = true ∧
      (iterateImmobile 8 5).shouldEnableShoving = true ∧
      (iterateImmobile 8 5).shouldReportFailure = false) ∧
    (stuckOutcome (iterateImmobile 8 5) 5).2 = .Stuck 9 ∧
    (stuckOutcome (iterateImmobile 9 5) 5).2 = .Failed (.StuckTimeout 10) := by
  decide

/-- C10: an agent whose creep has nonzero fatigue or is spawning when its
request is processed gets result Moving from pass 1 (lines 337-341), is never
entered into the resolver's record set — hence excluded from swap, shove and
tile-contention resolution, which only read that set — and pass 3, which alone
issues movement commands, skips it entirely (its record set stays free of the
entity even after resolve_conflicts, which never rekeys records), so no
movement command is issued and it stays on its current tile. -/
theorem c10_fatigued_excluded (getCreep : Nat → Option CreepInfo) (stuckOf : Nat → Nat)
    (oracle : Nat → Except MovementFailure (Option Pos))
    (requests : List (Nat × RequestFlags)) (sorted : List Nat)
    (execOutcome : Nat → ResolvedCreep → MovementResult)
    (idle : List (Pos × Nat)) (walk : Pos → Bool)
    (e : Nat) (req : RequestFlags) (info : CreepInfo)
    (hreq : alookup requests e = some req) (hinfo : getCreep e = some info)
    (hfat : 0 < info.fatigue ∨ info.spawning = true) (hmem : e ∈ sorted) :
    alookup (pass1 getCreep stuckOf oracle requests sorted).1 e = some .Moving ∧
    alookup (pass1 getCreep stuckOf oracle requests sorted).2 e = none ∧
    alookup (pass3 execOutcome
        (resolveConflicts (pass1 getCreep stuckOf oracle requests sorted).2 idle walk)
        (pass1 getCreep stuckOf oracle requests sorted).1) e = some .Moving := by
  have hp : alookup (pass1 getCreep stuckOf oracle requests sorted).1 e = some .Moving ∧
      alookup (pass1 getCreep stuckOf oracle requests sorted).2 e = none :=
    pass1_fold_reach getCreep stuckOf oracle requests e req info hreq hinfo hfat
      sorted ([], []) rfl hmem
  refine ⟨hp.1, hp.2, ?_⟩
  have hskel := skeleton_resolveConflicts
    (pass1 getCreep stuckOf oracle requests sorted).2 idle walk
  have hnone : alookup (resolveConflicts
      (pass1 getCreep stuckOf oracle requests sorted).2 idle walk) e = none := by
    have h1 := congrArg (fun l => alookup l e) hskel
    simp only [skeleton, alookup_mapVal] at h1
    rw [hp.2] at h1
    simpa using h1
  have hkeys := (alookup_eq_none_iff_keys _ e).mp hnone
  rw [pass3_preserves execOutcome e _ _ hkeys]
  exact hp.1

/-- Closed instantiation of `c10_fatigued_excluded`: a single requesting creep
with fatigue 5. -/
theorem c10_fatigued_excluded_witness :
    alookup (pass1 (fun _ => some ⟨⟨1, 1⟩, 5, false⟩) (fun _ => 0)
        (fun _ => Except.ok none) [(0, ⟨.Normal, true, true, none⟩)] [0]).1 0
        = some .Moving ∧
    alookup (pass1 (fun _ => some ⟨⟨1, 1⟩, 5, false⟩) (fun _ => 0)
        (fun _ => Except.ok none) [(0, ⟨.Normal, true, true, none⟩)] [0]).2 0 = none ∧
    alookup (pass3 (fun _ _ => .Arrived)
        (resolveConflicts (pass1 (fun _ => some ⟨⟨1, 1⟩, 5, false⟩) (fun _ => 0)
            (fun _ => Except.ok none) [(0, ⟨.Normal, true, true, none⟩)] [0]).2 []
          (fun _ => true))
        (pass1 (fun _ => some ⟨⟨1, 1⟩, 5, false⟩) (fun _ => 0)
            (fun _ => Except.ok none) [(0, ⟨.Normal, true, true, none⟩)] [0]).1) 0
        = some .Moving :=
  c10_fatigued_excluded (fun _ => some ⟨⟨1, 1⟩, 5, false⟩) (fun _ => 0)
    (fun _ => Except.ok none) [(0, ⟨.Normal, true, true, none⟩)] [0]
    (fun _ _ => .Arrived) [] (fun _ => true) 0 ⟨.Normal, true, true, none⟩
    ⟨⟨1, 1⟩, 5, false⟩ rfl rfl (Or.inl (by decide)) (by decide)

/-- C9: for the follow cycle 0→1→2→0, in every iteration order of the request
map, topological_sort_follows terminates (it is a total Lean function), returns
an ordering containing each of the three requesting agents exactly once, and
records exactly one severed follow edge. -/
theorem c9_cycle_fully_sorted :
    ∀ l ∈ followCycleRequests,
      (topologicalSortFollows l).1.length = 3 ∧
      (∀ k ∈ [0, 1, 2], (topologicalSortFollows l).1.count k = 1) ∧
      (topologicalSortFollows l).2.length = 1 := by
  decide

/-- Closed instantiation of `c9_cycle_fully_sorted` at the first listed order. -/
theorem c9_cycle_fully_sorted_witness :
    (topologicalSortFollows [(0, .followI 1 1), (1, .followI 2 1), (2, .followI 0 1)]).1.length
        = 3 ∧
    (topologicalSortFollows [(0, .followI 1 1), (1, .followI 2 1), (2, .followI 0 1)]).2.length
        = 1 :=
  ⟨(c9_cycle_fully_sorted _ (by decide)).1, (c9_cycle_fully_sorted _ (by decide)).2.2⟩

theorem mem_of_alookup {α β : Type} [DecidableEq α] (m : List (α × β)) (k : α) (v : β)
    (h : alookup m k = some v) : (k, v) ∈ m := by
  induction m with
  | nil => simp [alookup] at h
  | cons hd tl ih =>
    obtain ⟨k', v'⟩ := hd
    by_cases hk : k' = k
    · subst hk
      simp only [alookup, if_pos rfl] at h
      injection h with h
      subst h
      exact List.mem_cons_self _ _
    · simp only [alookup, if_neg hk] at h
      exact List.mem_cons_of_mem _ (ih h)

theorem alookup_of_mem_nodup {α β : Type} [DecidableEq α] (m : List (α × β)) (k : α) (v : β)
    (hmem : (k, v) ∈ m) (hnd : (m.map Prod.fst).Nodup) : alookup m k = some v := by
  induction m with
  | nil => cases hmem
  | cons hd tl ih =>
    obtain ⟨k', v'⟩ := hd
    simp only [List.map_cons, List.nodup_cons] at hnd
    cases hmem with
    | head => simp [alookup]
    | tail _ hm =>
      have hk : k' ≠ k := by
        intro hh
        subst hh
        exact hnd.1 (List.mem_map.mpr ⟨(k', v), hm, rfl⟩)
      simp only [alookup, if_neg hk]
      exact ih hm hnd.2

theorem swapPair_comm (a b : Nat) (h : a ≠ b) : swapPair b a = swapPair a b := by
  rcases Nat.lt_or_ge a b with hlt | hge
  · simp [swapPair, hlt, Nat.not_lt_of_lt hlt]
  · have hlt : b < a := Nat.lt_of_le_of_ne hge (fun hh => h hh.symm)
    simp [swapPair, hlt, Nat.not_lt_of_lt hlt]

theorem swapPosMap_skip (pos : Pos) :
    ∀ (l : CreepMap) (acc : List (Pos × Nat)), (∀ p ∈ l, p.2.current_pos ≠ pos) →
      alookup (l.foldl (fun mm ec =>
          if ec.2.has_request && !ec.2.resolved then ainsert mm ec.2.current_pos ec.1
          else mm) acc) pos = alookup acc pos := by
  intro l
  induction l with
  | nil => intro acc _; rfl
  | cons hd tl ih =>
    intro acc hne
    simp only [List.foldl_cons]
    have hhd : hd.2.current_pos ≠ pos := hne hd (List.mem_cons_self hd tl)
    have htl : ∀ p ∈ tl, p.2.current_pos ≠ pos := fun p hp => hne p (List.mem_cons_of_mem hd hp)
    rw [ih _ htl]
    by_cases hq : (hd.2.has_request && !hd.2.resolved) = true
    · rw [if_pos hq, alookup_ainsert, if_neg (fun hh => hhd hh.symm)]
    · rw [if_neg hq]

theorem alookup_swapPosMap_self (m : CreepMap) (B : Nat) (cb : ResolvedCreep)
    (hmem : (B, cb) ∈ m) (hq : cb.has_request = true) (hr : cb.resolved = false)
    (hpos : m.Pairwise (fun p q => p.2.current_pos ≠ q.2.current_pos)) :
    alookup (swapPosMap m) cb.current_pos = some B := by
  obtain ⟨l1, l2, rfl⟩ := List.append_of_mem hmem
  rw [List.pairwise_append] at hpos
  have hl2 : ∀ p ∈ l2, p.2.current_pos ≠ cb.current_pos := by
    intro p hp
    have := (List.pairwise_cons.mp hpos.2.1).1 p hp
    exact fun hh => this hh.symm
  rw [swapPosMap, List.foldl_append, List.foldl_cons]
  rw [swapPosMap_skip cb.current_pos l2 _ hl2]
  simp only [hq, hr, Bool.not_false, Bool.and_true, Bool.and_self, if_pos]
  rw [alookup_ainsert]
  simp

theorem alookup_swapPosMap_sound (pos : Pos) (h : Nat) :
    ∀ (l : CreepMap) (acc : List (Pos × Nat)),
      alookup (l.foldl (fun mm ec =>
          if ec.2.has_request && !ec.2.resolved then ainsert mm ec.2.current_pos ec.1
          else mm) acc) pos = some h →
      alookup acc pos = some h ∨
        ∃ c, (h, c) ∈ l ∧ c.current_pos = pos ∧ c.has_request = true ∧ c.resolved = false := by
  intro l
  induction l with
  | nil => intro acc hl; exact Or.inl hl
  | cons hd tl ih =>
    intro acc hl
    simp only [List.foldl_cons] at hl
    rcases ih _ hl with hacc | ⟨c, hc, hcpos, hcq, hcr⟩
    · by_cases hq : (hd.2.has_request && !hd.2.resolved) = true
      · rw [if_pos hq, alookup_ainsert] at hacc
        by_cases hp : pos = hd.2.current_pos
        · rw [if_pos hp] at hacc
          injection hacc with hacc
          right
          refine ⟨hd.2, ?_, hp.symm, ?_, ?_⟩
          · rw [← hacc]; exact List.mem_cons_self hd tl
          · exact ((Bool.and_eq_true _ _).mp hq).1
          · have := ((Bool.and_eq_true _ _).mp hq).2
            simpa using this
        · rw [if_neg hp] at hacc
          exact Or.inl hacc
      · rw [if_neg hq] at hacc
        exact Or.inl hacc
    · exact Or.inr ⟨c, List.mem_cons_of_mem hd hc, hcpos, hcq, hcr⟩

theorem detectStep_subset (creeps : CreepMap) (posMap : List (Pos × Nat))
    (pairs : List (Nat × Nat)) (ec : Nat × ResolvedCreep) (p : Nat × Nat)
    (hp : p ∈ pairs) : p ∈ detectStep creeps posMap pairs ec := by
  rw [detectStep]
  repeat' split
  all_goals first
  | exact hp
  | exact List.mem_append_left _ hp

theorem detectFold_subset (creeps : CreepMap) (posMap : List (Pos × Nat)) (p : Nat × Nat) :
    ∀ (l : CreepMap) (acc : List (Nat × Nat)), p ∈ acc →
      p ∈ l.foldl (detectStep creeps posMap) acc := by
  intro l
  induction l with
  | nil => intro acc hp; exact hp
  | cons hd tl ih =>
    intro acc hp
    simp only [List.foldl_cons]
    exact ih _ (detectStep_subset creeps posMap acc hd p hp)

theorem detectStep_inversion (creeps : CreepMap) (posMap : List (Pos × Nat))
    (acc : List (Nat × Nat)) (ec : Nat × ResolvedCreep) (p : Nat × Nat)
    (hp : p ∈ detectStep creeps posMap acc ec) :
    p ∈ acc ∨ ∃ desired other oc,
      ec.2.resolved = false ∧ ec.2.allow_swap = true ∧
      ec.2.desired_pos = some desired ∧ alookup posMap desired = some other ∧
      other ≠ ec.1 ∧ alookup creeps other = some oc ∧ oc.resolved = false ∧
      oc.allow_swap = true ∧ oc.desired_pos = some ec.2.current_pos ∧
      p = swapPair ec.1 other := by
  rw [detectStep] at hp
  by_cases h1 : (ec.2.resolved || !ec.2.allow_swap) = true
  · rw [if_pos h1] at hp; exact Or.inl hp
  · rw [if_neg h1] at hp
    simp only [Bool.or_eq_true, not_or, Bool.not_eq_true, Bool.not_eq_false'] at h1
    obtain ⟨hres, hswap⟩ := h1
    cases hdes : ec.2.desired_pos with
    | none => rw [hdes] at hp; exact Or.inl hp
    | some desired =>
      rw [hdes] at hp
      dsimp only at hp
      cases hoth : alookup posMap desired with
      | none => rw [hoth] at hp; exact Or.inl hp
      | some other =>
        rw [hoth] at hp
        dsimp only at hp
        by_cases hoe : other = ec.1
        · rw [if_pos hoe] at hp; exact Or.inl hp
        · rw [if_neg hoe] at hp
          cases hoc : alookup creeps other with
          | none => rw [hoc] at hp; exact Or.inl hp
          | some oc =>
            rw [hoc] at hp
            dsimp only at hp
            by_cases h2 : (oc.resolved || !oc.allow_swap) = true
            · rw [if_pos h2] at hp; exact Or.inl hp
            · rw [if_neg h2] at hp
              simp only [Bool.or_eq_true, not_or, Bool.not_eq_true, Bool.not_eq_false'] at h2
              obtain ⟨hres2, hswap2⟩ := h2
              by_cases h3 : oc.desired_pos = some ec.2.current_pos
              · rw [if_pos h3] at hp
                by_cases h4 : acc.contains (swapPair ec.1 other) = true
                · rw [if_pos h4] at hp; exact Or.inl hp
                · rw [if_neg h4] at hp
                  rcases List.mem_append.mp hp with hl | hr
                  · exact Or.inl hl
                  · right
                    refine ⟨desired, other, oc, hres, hswap, rfl, hoth, hoe, hoc,
                      hres2, hswap2, h3, ?_⟩
                    simpa using hr
              · rw [if_neg h3] at hp; exact Or.inl hp

theorem detectFold_inversion (creeps : CreepMap) (posMap : List (Pos × Nat)) (p : Nat × Nat) :
    ∀ (l : CreepMap) (acc : List (Nat × Nat)),
      p ∈ l.foldl (detectStep creeps posMap) acc →
      p ∈ acc ∨ ∃ e c desired other oc,
        (e, c) ∈ l ∧ c.resolved = false ∧ c.allow_swap = true ∧
        c.desired_pos = some desired ∧ alookup posMap desired = some other ∧
        other ≠ e ∧ alookup creeps other = some oc ∧ oc.resolved = false ∧
        oc.allow_swap = true ∧ oc.desired_pos = some c.current_pos ∧
        p = swapPair e other := by
  intro l
  induction l with
  | nil => intro acc hp; exact Or.inl hp
  | cons hd tl ih =>
    intro acc hp
    simp only [List.foldl_cons] at hp
    rcases ih _ hp with hstep | ⟨e, c, d, o, oc, hmem, hrest⟩
    · rcases detectStep_inversion creeps posMap acc hd p hstep with hl | ⟨d, o, oc, hs⟩
      · exact Or.inl hl
      · right
        exact ⟨hd.1, hd.2, d, o, oc, List.mem_cons_self hd tl, hs.1, hs.2.1, hs.2.2.1,
          hs.2.2.2.1, hs.2.2.2.2.1, hs.2.2.2.2.2.1, hs.2.2.2.2.2.2.1,
          hs.2.2.2.2.2.2.2.1, hs.2.2.2.2.2.2.2.2.1, hs.2.2.2.2.2.2.2.2.2⟩
    · right
      exact ⟨e, c, d, o, oc, List.mem_cons_of_mem hd hmem, hrest⟩


section SwapAtomic

variable (m : CreepMap) (A B : Nat) (ca cb : ResolvedCreep)

theorem detect_pair_mem (hA : alookup m A = some ca) (hB : alookup m B = some cb)
    (hAB : A ≠ B)
    (hdesA : ca.desired_pos = some cb.current_pos)
    (hdesB : cb.desired_pos = some ca.current_pos)
    (hsA : ca.allow_swap = true) (hsB : cb.allow_swap = true)
    (hqA : ca.has_request = true) (hqB : cb.has_request = true)
    (hrA : ca.resolved = false) (hrB : cb.resolved = false)
    (hpos : m.Pairwise (fun p q => p.2.current_pos ≠ q.2.current_pos)) :
    swapPair A B ∈ detectSwapPairs m (swapPosMap m) := by
  have hlookupB : alookup (swapPosMap m) cb.current_pos = some B :=
    alookup_swapPosMap_self m B cb (mem_of_alookup m B cb hB) hqB hrB hpos
  obtain ⟨l1, l2, hm⟩ := List.append_of_mem (mem_of_alookup m A ca hA)
  rw [detectSwapPairs, hm]
  rw [hm] at hlookupB hB
  rw [List.foldl_append, List.foldl_cons]
  apply detectFold_subset
  rw [detectStep]
  rw [if_neg (by simp [hrA, hsA] : ¬(((A, ca) : Nat × ResolvedCreep).2.resolved
    || !((A, ca) : Nat × ResolvedCreep).2.allow_swap) = true)]
  dsimp only
  rw [hdesA]
  dsimp only
  rw [hlookupB]
  dsimp only
  rw [if_neg (fun hh => hAB hh.symm)]
  rw [hB]
  dsimp only
  rw [if_neg (by simp [hrB, hsB] : ¬(cb.resolved || !cb.allow_swap) = true)]
  rw [if_pos hdesB]
  split
  · next h4 => simpa using h4
  · exact List.mem_append_right _ (List.mem_singleton.mpr rfl)

theorem detect_pair_only (hA : alookup m A = some ca) (hB : alookup m B = some cb)
    (hAB : A ≠ B)
    (hdesA : ca.desired_pos = some cb.current_pos)
    (hdesB : cb.desired_pos = some ca.current_pos)
    (hqA : ca.has_request = true) (hqB : cb.has_request = true)
    (hrA : ca.resolved = false) (hrB : cb.resolved = false)
    (hnd : (m.map Prod.fst).Nodup)
    (hpos : m.Pairwise (fun p q => p.2.current_pos ≠ q.2.current_pos)) :
    ∀ p ∈ detectSwapPairs m (swapPosMap m),
      p = swapPair A B ∨ (p.1 ≠ A ∧ p.1 ≠ B ∧ p.2 ≠ A ∧ p.2 ≠ B) := by
  intro p hp
  have hsymm : Symmetric (fun p q : Nat × ResolvedCreep =>
      p.2.current_pos ≠ q.2.current_pos) := fun x y h hh => h hh.symm
  have hforall := hpos.forall hsymm
  have hsameEntry : ∀ (x : Nat × ResolvedCreep), x ∈ m →
      ∀ (y : Nat × ResolvedCreep), y ∈ m → x.2.current_pos = y.2.current_pos → x = y := by
    intro x hx y hy hcur
    by_contra hne
    exact hforall hx hy hne hcur
  have hlookupA : alookup (swapPosMap m) ca.current_pos = some A :=
    alookup_swapPosMap_self m A ca (mem_of_alookup m A ca hA) hqA hrA hpos
  have hlookupB : alookup (swapPosMap m) cb.current_pos = some B :=
    alookup_swapPosMap_self m B cb (mem_of_alookup m B cb hB) hqB hrB hpos
  rw [detectSwapPairs] at hp
  rcases detectFold_inversion m (swapPosMap m) p m [] hp with hnil | ⟨e, c, d, o, oc,
    hmem, hcres, hcswap, hcdes, hod, hoe, hoc, hocres, hocswap, hocdes, hpeq⟩
  · cases hnil
  have hce : alookup m e = some c := alookup_of_mem_nodup m e c hmem hnd
  by_cases heA : e = A
  · subst heA
    have hceq : c = ca := by rw [hce] at hA; injection hA
    subst hceq
    have hdeq : d = cb.current_pos := by rw [hcdes] at hdesA; injection hdesA
    subst hdeq
    have hoB : o = B := by rw [hod] at hlookupB; injection hlookupB
    subst hoB
    exact Or.inl hpeq
  · by_cases heB : e = B
    · have hce' : alookup m B = some c := heB ▸ hce
      have hceq : c = cb := by rw [hce'] at hB; injection hB
      have hdeq : d = ca.current_pos := by
        rw [hceq] at hcdes; rw [hcdes] at hdesB; injection hdesB
      have hoA : o = A := by
        rw [hdeq] at hod; rw [hod] at hlookupA; injection hlookupA
      rw [hpeq, heB, hoA]
      exact Or.inl (swapPair_comm A B hAB)
    · by_cases hoA : o = A
      · subst hoA
        have hoceq : oc = ca := by rw [hoc] at hA; injection hA
        subst hoceq
        have hcc : c.current_pos = cb.current_pos := by
          rw [hdesA] at hocdes; injection hocdes with hh; exact hh.symm
        have := hsameEntry (e, c) hmem (B, cb) (mem_of_alookup m B cb hB) hcc
        exact absurd (congrArg Prod.fst this) heB
      · by_cases hoB : o = B
        · subst hoB
          have hoceq : oc = cb := by rw [hoc] at hB; injection hB
          subst hoceq
          have hcc : c.current_pos = ca.current_pos := by
            rw [hdesB] at hocdes; injection hocdes with hh; exact hh.symm
          have := hsameEntry (e, c) hmem (A, ca) (mem_of_alookup m A ca hA) hcc
          exact absurd (congrArg Prod.fst this) heA
        · right
          have hsplit : (p.1 = e ∨ p.1 = o) ∧ (p.2 = e ∨ p.2 = o) := by
            rw [hpeq, swapPair]
            by_cases hlt : e < o
            · simp [hlt]
            · simp [hlt]
          have hp1 : p.1 ≠ A ∧ p.1 ≠ B := by
            rcases hsplit.1 with h | h <;> rw [h]
            · exact ⟨heA, heB⟩
            · exact ⟨hoA, hoB⟩
          have hp2 : p.2 ≠ A ∧ p.2 ≠ B := by
            rcases hsplit.2 with h | h <;> rw [h]
            · exact ⟨heA, heB⟩
            · exact ⟨hoA, hoB⟩
          exact ⟨hp1.1, hp1.2, hp2.1, hp2.2⟩


theorem execStep_untouched (mm : CreepMap) (q : Nat × Nat) (k : Nat)
    (h1 : q.1 ≠ k) (h2 : q.2 ≠ k) :
    alookup (execStep mm q) k = alookup mm k := by
  rw [execStep]
  repeat' split
  all_goals
    simp [alookup_markResolved, show ¬(k = q.1) from fun hh => h1 hh.symm,
      show ¬(k = q.2) from fun hh => h2 hh.symm]

theorem execStep_swap_core (mm : CreepMap) (x y : Nat) (cx cy : ResolvedCreep)
    (hx : alookup mm x = some cx) (hy : alookup mm y = some cy)
    (hdx : cx.desired_pos = some cy.current_pos)
    (hdy : cy.desired_pos = some cx.current_pos)
    (hax : anchorOk cx.anchor cy.current_pos = true)
    (hay : anchorOk cy.anchor cx.current_pos = true)
    (hxy : ¬(x = y)) :
    alookup (execStep mm (x, y)) x
        = some { cx with resolved := true, final_pos := cy.current_pos } ∧
    alookup (execStep mm (x, y)) y
        = some { cy with resolved := true, final_pos := cx.current_pos } := by
  rw [execStep]
  dsimp only
  rw [hx, hy]
  dsimp only
  rw [hdx, hdy]
  dsimp only
  rw [if_pos (show (anchorOk cx.anchor cy.current_pos
      && anchorOk cy.anchor cx.current_pos) = true by simp [hax, hay])]
  constructor
  · simp [alookup_markResolved, hxy, hx, hdx]
  · simp [alookup_markResolved, hx, hy, hdy,
      show ¬(y = x) from fun hh => hxy hh.symm]

theorem execStep_pair (mm : CreepMap)
    (hAB : A ≠ B)
    (hdesA : ca.desired_pos = some cb.current_pos)
    (hdesB : cb.desired_pos = some ca.current_pos)
    (hanchA : anchorOk ca.anchor cb.current_pos = true)
    (hanchB : anchorOk cb.anchor ca.current_pos = true)
    (hgood : (alookup mm A = some ca ∧ alookup mm B = some cb) ∨
      (alookup mm A = some { ca with resolved := true, final_pos := cb.current_pos } ∧
        alookup mm B = some { cb with resolved := true, final_pos := ca.current_pos }))
    (q : Nat × Nat) (hq : q = (A, B) ∨ q = (B, A)) :
    alookup (execStep mm q) A
        = some { ca with resolved := true, final_pos := cb.current_pos } ∧
    alookup (execStep mm q) B
        = some { cb with resolved := true, final_pos := ca.current_pos } := by
  have hBA : ¬(B = A) := fun hh => hAB hh.symm
  have hABn : ¬(A = B) := hAB
  rcases hq with hq | hq <;> subst hq <;> rcases hgood with ⟨hA1, hB1⟩ | ⟨hA1, hB1⟩
  · exact execStep_swap_core mm A B ca cb hA1 hB1 hdesA hdesB hanchA hanchB hABn
  · exact execStep_swap_core mm A B
      { ca with resolved := true, final_pos := cb.current_pos }
      { cb with resolved := true, final_pos := ca.current_pos }
      hA1 hB1 hdesA hdesB hanchA hanchB hABn
  · have h := execStep_swap_core mm B A cb ca hB1 hA1 hdesB hdesA hanchB hanchA hBA
    exact ⟨h.2, h.1⟩
  · have h := execStep_swap_core mm B A
      { cb with resolved := true, final_pos := ca.current_pos }
      { ca with resolved := true, final_pos := cb.current_pos }
      hB1 hA1 hdesB hdesA hanchB hanchA hBA
    exact ⟨h.2, h.1⟩

theorem execFold_pair (hAB : A ≠ B)
    (hdesA : ca.desired_pos = some cb.current_pos)
    (hdesB : cb.desired_pos = some ca.current_pos)
    (hanchA : anchorOk ca.anchor cb.current_pos = true)
    (hanchB : anchorOk cb.anchor ca.current_pos = true) :
    ∀ (l : List (Nat × Nat)) (mm : CreepMap),
      (∀ q ∈ l, q = swapPair A B ∨ (q.1 ≠ A ∧ q.1 ≠ B ∧ q.2 ≠ A ∧ q.2 ≠ B)) →
      ((alookup mm A = some { ca with resolved := true, final_pos := cb.current_pos } ∧
          alookup mm B = some { cb with resolved := true, final_pos := ca.current_pos }) →
        (alookup (l.foldl execStep mm) A
            = some { ca with resolved := true, final_pos := cb.current_pos } ∧
          alookup (l.foldl execStep mm) B
            = some { cb with resolved := true, final_pos := ca.current_pos })) ∧
      (((alookup mm A = some ca ∧ alookup mm B = some cb) ∨
          (alookup mm A = some { ca with resolved := true, final_pos := cb.current_pos } ∧
            alookup mm B = some { cb with resolved := true, final_pos := ca.current_pos })) →
        swapPair A B ∈ l →
        (alookup (l.foldl execStep mm) A
            = some { ca with resolved := true, final_pos := cb.current_pos } ∧
          alookup (l.foldl execStep mm) B
            = some { cb with resolved := true, final_pos := ca.current_pos })) := by
  have hpairShape : swapPair A B = (A, B) ∨ swapPair A B = (B, A) := by
    rw [swapPair]
    by_cases hlt : A < B
    · exact Or.inl (by simp [hlt])
    · exact Or.inr (by simp [hlt])
  intro l
  induction l with
  | nil =>
    intro mm _
    exact ⟨fun h => h, fun _ hmem => absurd hmem (List.not_mem_nil _)⟩
  | cons q rest ih =>
    intro mm hl
    have hq := hl q (List.mem_cons_self q rest)
    have hlrest : ∀ q' ∈ rest, q' = swapPair A B ∨
        (q'.1 ≠ A ∧ q'.1 ≠ B ∧ q'.2 ≠ A ∧ q'.2 ≠ B) :=
      fun q' hq' => hl q' (List.mem_cons_of_mem q hq')
    simp only [List.foldl_cons]
    constructor
    · intro htarget
      rcases hq with hq | ⟨hq1, hq2, hq3, hq4⟩
      · have hstep := execStep_pair A B ca cb mm hAB hdesA hdesB hanchA hanchB
          (Or.inr htarget) q (hq ▸ hpairShape)
        exact (ih _ hlrest).1 hstep
      · have e1 := execStep_untouched mm q A hq1 hq3
        have e2 := execStep_untouched mm q B hq2 hq4
        exact (ih _ hlrest).1 ⟨e1.trans htarget.1, e2.trans htarget.2⟩
    · intro hgood hmem
      rcases hq with hq | ⟨hq1, hq2, hq3, hq4⟩
      · have hstep := execStep_pair A B ca cb mm hAB hdesA hdesB hanchA hanchB
          hgood q (hq ▸ hpairShape)
        exact (ih _ hlrest).1 hstep
      · have e1 := execStep_untouched mm q A hq1 hq3
        have e2 := execStep_untouched mm q B hq2 hq4
        have hgood' : (alookup (execStep mm q) A = some ca ∧
            alookup (execStep mm q) B = some cb) ∨
            (alookup (execStep mm q) A
                = some { ca with resolved := true, final_pos := cb.current_pos } ∧
              alookup (execStep mm q) B
                = some { cb with resolved := true, final_pos := ca.current_pos }) := by
          rcases hgood with ⟨g1, g2⟩ | ⟨g1, g2⟩
          · exact Or.inl ⟨e1.trans g1, e2.trans g2⟩
          · exact Or.inr ⟨e1.trans g1, e2.trans g2⟩
        have hmem' : swapPair A B ∈ rest := by
          cases hmem with
          | head =>
            exfalso
            rcases hpairShape with hs | hs
            · exact hq1 (congrArg Prod.fst hs)
            · exact hq2 (congrArg Prod.fst hs)
          | tail _ hm => exact hm
        exact (ih _ hlrest).2 hgood' hmem'


/-- C6: whenever agent A's desired tile is agent B's current tile and vice
versa, both allow swapping, neither is resolved yet, and each prospective
destination satisfies the other agent's anchor constraint, resolve_swaps marks
BOTH agents resolved in the same pass with final tiles equal to each other's
origin tiles — the swap is atomic, never leaving exactly one member resolved. -/
theorem c6_swap_atomicity
    (hA : alookup m A = some ca) (hB : alookup m B = some cb)
    (hAB : A ≠ B)
    (hdesA : ca.desired_pos = some cb.current_pos)
    (hdesB : cb.desired_pos = some ca.current_pos)
    (hsA : ca.allow_swap = true) (hsB : cb.allow_swap = true)
    (hqA : ca.has_request = true) (hqB : cb.has_request = true)
    (hrA : ca.resolved = false) (hrB : cb.resolved = false)
    (hanchA : anchorOk ca.anchor cb.current_pos = true)
    (hanchB : anchorOk cb.anchor ca.current_pos = true)
    (hnd : (m.map Prod.fst).Nodup)
    (hpos : m.Pairwise (fun p q => p.2.current_pos ≠ q.2.current_pos)) :
    alookup (resolveSwaps m) A
        = some { ca with resolved := true, final_pos := cb.current_pos } ∧
    alookup (resolveSwaps m) B
        = some { cb with resolved := true, final_pos := ca.current_pos } := by
  have hmem := detect_pair_mem m A B ca cb hA hB hAB hdesA hdesB hsA hsB
    hqA hqB hrA hrB hpos
  have honly := detect_pair_only m A B ca cb hA hB hAB hdesA hdesB
    hqA hqB hrA hrB hnd hpos
  rw [resolveSwaps, execSwapPairs]
  exact (execFold_pair A B ca cb hAB hdesA hdesB hanchA hanchB
    (detectSwapPairs m (swapPosMap m)) m honly).2 (Or.inl ⟨hA, hB⟩) hmem

/-- Closed instantiation of `c6_swap_atomicity` on `c6Creeps`. -/
theorem c6_swap_atomicity_witness :
    alookup (resolveSwaps c6Creeps) 0
        = some { mkCreep ⟨10, 10⟩ (some ⟨10, 11⟩) .Normal true true with
            resolved := true, final_pos := ⟨10, 11⟩ } ∧
    alookup (resolveSwaps c6Creeps) 1
        = some { mkCreep ⟨10, 11⟩ (some ⟨10, 10⟩) .Normal true true with
            resolved := true, final_pos := ⟨10, 10⟩ } :=
  c6_swap_atomicity c6Creeps 0 1
    (mkCreep ⟨10, 10⟩ (some ⟨10, 11⟩) .Normal true true)
    (mkCreep ⟨10, 11⟩ (some ⟨10, 10⟩) .Normal true true)
    rfl rfl (by decide) rfl rfl rfl rfl rfl rfl rfl rfl rfl rfl
    (by decide) (by decide)


end SwapAtomic

end ScreepsRover
